import Mathlib

/-!
# cartographer_ros `sensor_bridge.cc`

A shallow embedding of `SensorBridge::HandleLaserScan` (scan subdivision), of the
geodetic helpers `toSM_ECC`, `DistGreatCircle`, `calDistanceStatic`, of the origin
capture in `SensorBridge::ToOdometryData`, and of the message handlers `ToImuData`,
`HandleImuMessage`, `HandleOdometryMessage` and `HandleRangefinder` with the frame check
`CheckNoLeadingSlash`, followed by theorems about them.

Conventions of the embedding.

* `size_t` values are natural numbers and every `size_t` product or sum is reduced
  modulo `SIZE_MOD = 2 ^ 64`.
* An operation with undefined behaviour or a thrown exception (`std::vector` built from
  an invalid iterator range, `at` out of range) makes the model return `none`.
* `float` and `double` values are idealised as exact numbers: rationals for the point
  coordinates, and an arbitrary ordered field, instantiated with the reals, for the
  geodetic code. Rounding, overflow and underflow are not modelled, so a theorem on the
  geodetic code is stated with margins that the rounded code meets as well, and nothing
  is stated where the rounded code and exact arithmetic part ways: the latitude guard
  `lat0 + 1e-9` when it rounds to `lat1`, a northing that rounds to zero, the product
  `lon0 * lon1` when it underflows. Of the special values, the infinite northing that
  `toSM_ECC` produces at the latitude `-90` is modelled, a NaN is `none`, and the sign
  of a zero is not modelled. The source constant `PI` keeps its decimal value, which is
  below the real number `pi`, and `M_PI` is the same `double`.
* A failed `CHECK` ends the process; the model of a handler reports the failed check
  together with the calls made before it. Code that `sensor_bridge.cc` calls but does not
  contain (transform lookup, `Rigid3d` and quaternion arithmetic, time conversions) is a
  parameter of the model.
* The subdivision count `num_subdivisions_per_laser_scan_` is an `int`; only
  non-negative counts are modelled (with a negative count the loop test `i != N` never
  succeeds before `i` overflows).
-/

set_option autoImplicit false

namespace cartographer_ros

/-! ## Scan subdivision: data model -/

/-- One past `SIZE_MAX` on the 64-bit target: `size_t` arithmetic wraps modulo this. -/
def SIZE_MOD : Nat := 2 ^ 64

/-- A point of a `carto::sensor::TimedPointCloud` (an `Eigen::Vector4f`): components
`[0]`, `[1]`, `[2]` are the position, component `[3]` is the time of the point relative
to the start of the scan, in seconds. -/
structure TimedPoint where
  x : ℚ
  y : ℚ
  z : ℚ
  time : ℚ
deriving DecidableEq

/-- One call `HandleRangefinder(sensor_id, subdivision_time, frame_id, subdivision)` made
by `HandleLaserScan`, together with the loop locals `start_index` and `end_index` that
delimit the forwarded sub-cloud. `carto::common::Time` is a tick count. -/
structure Subdivision where
  start_index : Nat
  end_index : Nat
  subdivision_time : Int
  subdivision : List TimedPoint
deriving DecidableEq

/-! ## Scan subdivision: `SensorBridge::HandleLaserScan` -/

/-- The body of the `for` loop of `HandleLaserScan`, run for the `k` iterations
`i, i + 1, ..., i + k - 1`. `FromSeconds` is `carto::common::FromSeconds`, which is not
part of this file. The result lists the `HandleRangefinder` calls in the order they are
made. -/
def HandleLaserScan.loop (FromSeconds : ℚ → Int) (num_subdivisions_per_laser_scan_ : Nat)
    (start_time : Int) (points : List TimedPoint) : Nat → Nat → Option (List Subdivision)
  | 0, _ => some []
  | k + 1, i =>
    let start_index := points.length * i % SIZE_MOD / num_subdivisions_per_laser_scan_
    let end_index := points.length * (i + 1) % SIZE_MOD / num_subdivisions_per_laser_scan_
    -- `subdivision(points.begin() + start_index, points.begin() + end_index)`
    if start_index ≤ end_index ∧ end_index ≤ points.length then
      let subdivision := (points.drop start_index).take (end_index - start_index)
      if start_index = end_index then
        HandleLaserScan.loop FromSeconds num_subdivisions_per_laser_scan_ start_time points
          k (i + 1)
      else
        let middle_index := (start_index + end_index) % SIZE_MOD / 2
        -- `points.points.at(middle_index)[3]`
        match points[middle_index]? with
        | none => none
        | some p =>
          let subdivision_time := start_time + FromSeconds p.time
          (HandleLaserScan.loop FromSeconds num_subdivisions_per_laser_scan_ start_time
            points k (i + 1)).map
            (fun rest => ⟨start_index, end_index, subdivision_time, subdivision⟩ :: rest)
    else none

/-- `SensorBridge::HandleLaserScan`: the loop `for (int i = 0; i != N; ++i)` for a
non-negative subdivision count `N = num_subdivisions_per_laser_scan_`. -/
def HandleLaserScan (FromSeconds : ℚ → Int) (num_subdivisions_per_laser_scan_ : Nat)
    (start_time : Int) (points : List TimedPoint) : Option (List Subdivision) :=
  HandleLaserScan.loop FromSeconds num_subdivisions_per_laser_scan_ start_time points
    num_subdivisions_per_laser_scan_ 0

/-! ## Scan subdivision: predicates used in the statements -/

/-- The sub-ranges of `subs` are non-empty and laid end to end from index `a` to index
`b`: the first starts at `a`, each one starts where the previous one ended, and the last
ends at `b`. -/
def Contiguous : Nat → List Subdivision → Nat → Prop
  | a, [], b => a = b
  | a, s :: rest, b => s.start_index = a ∧ a < s.end_index ∧ Contiguous s.end_index rest b

/-- The record `s` is what iteration `i` of the loop forwards when it does not skip:
its index range is `[floor(len*i/N), floor(len*(i+1)/N))`, its sub-cloud is that slice of
`points`, and its time is `start_time` plus the relative time of the point at the middle
index `(start_index + end_index) / 2`. -/
def IsSubdivisionOf (FromSeconds : ℚ → Int) (N : Nat) (start_time : Int)
    (points : List TimedPoint) (s : Subdivision) : Prop :=
  (∃ i, i < N ∧ s.start_index = points.length * i / N ∧
      s.end_index = points.length * (i + 1) / N) ∧
    s.subdivision = (points.drop s.start_index).take (s.end_index - s.start_index) ∧
    ∃ p, points[(s.start_index + s.end_index) / 2]? = some p ∧
      s.subdivision_time = start_time + FromSeconds p.time

/-- The `N` candidate index ranges of the loop, for `i = first, ..., first + count - 1`,
with the empty ones (`start_index == end_index`) removed. -/
def nonEmptyRanges (len N first count : Nat) : List (Nat × Nat) :=
  ((List.range' first count).map
    (fun i => (len * i / N, len * (i + 1) / N))).filter (fun r => decide (r.1 ≠ r.2))

/-- A three-point cloud with increasing relative times, used to instantiate the
theorems. -/
def samplePoints : List TimedPoint :=
  [⟨1, 0, 0, 0⟩, ⟨0, 1, 0, 1 / 10⟩, ⟨-1, 0, 0, 2 / 10⟩]

/-- A tick conversion (`10^7` ticks per second, rounded down), used to instantiate the
theorems. -/
def sampleFromSeconds (seconds : ℚ) : Int := ⌊seconds * 10000000⌋

/-! ## Geodetic helpers: arithmetic model

The geodetic helpers are written once, over any ordered field `K` standing for `double`
and any implementation `m` of the `<cmath>` functions they call. Every theorem below
instantiates `K` with the real numbers and `m` with the exact functions (`realLibm`).

A `double` operation whose result is a NaN (logarithm of a negative number, `acos`
outside `[-1, 1]`, the difference of two equal infinities) makes the model return `none`,
and so do `pow` of a non-positive base and a division by zero. The logarithm of zero is
minus infinity, which `toSM_ECC` carries into the northing at latitude `-90`; the
northing is therefore an `Extended` number. -/

section Geodetic

variable {K : Type} [LinearOrderedField K]

/-- A `double` that is an ordinary number or an infinity; a NaN is the `none` of an
`Option (Extended K)`. -/
inductive Extended (K : Type) where
  | fin (x : K)
  | posInf
  | negInf

/-- The product `z * v` of an ordinary `double` and an extended one. -/
def Extended.mul (z : K) : Extended K → Option (Extended K)
  | .fin x => some (.fin (z * x))
  | .posInf => if 0 < z then some .posInf else if z < 0 then some .negInf else none
  | .negInf => if 0 < z then some .negInf else if z < 0 then some .posInf else none

/-- The difference `a - b` of two extended `double`s. -/
def Extended.sub : Extended K → Extended K → Option (Extended K)
  | .fin a, .fin b => some (.fin (a - b))
  | .fin _, .posInf => some .negInf
  | .fin _, .negInf => some .posInf
  | .posInf, .posInf => none
  | .posInf, _ => some .posInf
  | .negInf, .negInf => none
  | .negInf, _ => some .negInf

/-- The `<cmath>` functions called by `adjlon`, `toSM_ECC`, `DistGreatCircle`,
`calDistanceStatic` and `ToOdometryData`. -/
structure Libm (K : Type) where
  sqrt : K → K
  sin : K → K
  cos : K → K
  tan : K → K
  atan : K → K
  atan2 : K → K → K
  floor : K → K
  log : K → Option (Extended K)
  pow : K → K → Option K
  acos : K → Option K

/-- The macro `PI` of `sensor_bridge.cc`. -/
def PI : K := 3.1415926535897931160

/-- The macro `M_PI` of `<cmath>`, written `3.14159265358979323846` there: as a `double`
it is the same value as `PI`, and that value is what the code computes with. -/
def M_PI : K := PI

/-- The call `atan2(y, x)` for an ordinary `y` and an extended `x`: `atan2(y, +inf)` is a
zero, and `atan2(y, -inf)` is `atan2(0, -1)`, the `double` nearest to `pi`, with the sign
of `y`. -/
def Libm.atan2e (m : Libm K) (y : K) : Extended K → K
  | .fin x => m.atan2 y x
  | .posInf => 0
  | .negInf => if y < 0 then -m.atan2 0 (-1) else m.atan2 0 (-1)

/-- A division of two `double`s whose divisor is not a constant. -/
def fdiv (a b : K) : Option K := if b = 0 then none else some (a / b)

/-- `adjlon`: reduce a longitude in radians to the range `-pi..pi`. -/
def adjlon (m : Libm K) (lon : K) : K :=
  let SPI : K := 3.14159265359
  if |lon| ≤ SPI then lon
  else
    let ONEPI : K := 3.14159265358979323846
    let lon := lon + ONEPI
    let TWOPI : K := 6.2831853071795864769
    let lon := lon - TWOPI * m.floor (lon / TWOPI)
    lon - ONEPI

/-- `toSM_ECC`: ellipsoidal Mercator projection of `(lat, lon)` relative to
`(lat0, lon0)`; returns `(*x, *y)`, the easting and the northing. -/
def toSM_ECC (m : Libm K) (lat lon lat0 lon0 : K) : Option (K × Extended K) :=
  let WGSinvf : K := 298.257223563
  let f : K := 1.0 / WGSinvf
  let e2 : K := 2 * f - f * f
  let e : K := m.sqrt e2
  let WGS84_semimajor_axis_meters : K := 6378137.0
  let mercator_k0 : K := 0.9996
  let z : K := WGS84_semimajor_axis_meters * mercator_k0
  let DEGREE : K := PI / 180.0
  let x : K := (lon - lon0) * DEGREE * z
  let s : K := m.sin (lat * DEGREE)
  let s0 : K := m.sin (lat0 * DEGREE)
  do
    let r0 ← fdiv (1 - e * s0) (1 + e * s0)
    let p0 ← m.pow r0 (e / 2)
    let l0 ← m.log (m.tan (PI / 4 + lat0 * DEGREE / 2) * p0)
    let falsen ← Extended.mul z l0
    let r ← fdiv (1 - e * s) (1 + e * s)
    let p ← m.pow r (e / 2)
    let l ← m.log (m.tan (PI / 4 + lat * DEGREE / 2) * p)
    let test ← Extended.mul z l
    let y ← Extended.sub test falsen
    pure (x, y)

/-- `DistGreatCircle`: ellipsoidal inverse geodesic distance in nautical miles. The
azimuths `al12`, `al21` (and `tandlammp`, `u`, `v` they are computed from) are locals that
are never returned and are left out. -/
def DistGreatCircle (m : Libm K) (slat slon dlat dlon : K) : Option K :=
  let DEGREE : K := PI / 180.0
  let phi1 : K := slat * DEGREE
  let lam1 : K := slon * DEGREE
  let phi2 : K := dlat * DEGREE
  let lam2 : K := dlon * DEGREE
  let WGSinvf : K := 298.257223563
  let f : K := 1.0 / WGSinvf
  let WGS84_semimajor_axis_meters : K := 6378137.0
  let geod_a : K := WGS84_semimajor_axis_meters
  let es : K := 2 * f - f * f
  let onef : K := m.sqrt (1 - es)
  let geod_f : K := 1 - onef
  let f4 : K := geod_f / 4
  let f64 : K := geod_f * geod_f / 64
  let th1 : K := m.atan (onef * m.tan phi1)
  let th2 : K := m.atan (onef * m.tan phi2)
  let thm : K := 0.5 * (th1 + th2)
  let dthm : K := 0.5 * (th2 - th1)
  let dlam : K := adjlon m (lam2 - lam1)
  let dlamm : K := 0.5 * dlam
  let DTOL : K := 1e-12
  if |dlam| < DTOL ∧ |dthm| < DTOL then some 0.0
  else
    let sindlamm : K := m.sin dlamm
    let costhm : K := m.cos thm
    let sinthm : K := m.sin thm
    let cosdthm : K := m.cos dthm
    let sindthm : K := m.sin dthm
    let L : K := sindthm * sindthm + (cosdthm * cosdthm - sinthm * sinthm)
      * sindlamm * sindlamm
    let cosd : K := 1 - L - L
    do
      let d ← m.acos cosd
      let E : K := cosd + cosd
      let sind : K := m.sin d
      let Y : K := sinthm * cosdthm
      let q ← fdiv (Y + Y) (1 - L)
      let Y : K := Y * q
      let T : K := sindthm * costhm
      let q ← fdiv (T + T) L
      let T : K := T * q
      let X : K := Y + T
      let Y : K := Y - T
      let T ← fdiv d sind
      let D : K := 4 * T * T
      let A : K := D * E
      let B : K := D + D
      let geod_S : K := geod_a * sind * (T - f4 * (T * X - Y) +
        f64 * (X * (A + (T - 0.5 * (A - E)) * X) - Y * (B + E * Y) + D * X * Y))
      let d5 : K := geod_S / 1852.0
      pure d5

/-- `calDistanceStatic`, lines 204-220: the two longitudes brought to the same phase;
returns `(lon0x, lon1x)`. -/
def calDistanceStatic.lonx (lon0 lon1 : K) : K × K :=
  if lon0 * lon1 < 0 then
    let a : K × K := if lon0 < 0 then (lon0 + 360, lon1) else (lon0, lon1 + 360)
    let b : K × K :=
      if |a.1 - a.2| > 180 then
        (if a.1 > a.2 then (a.1 - 360, a.2) else (a.1, a.2 - 360))
      else a
    (b.1 + 360, b.2 + 360)
  else (lon0, lon1)

/-- `calDistanceStatic`, line 232: the latitude `mlat0` used by the distance block. -/
def calDistanceStatic.mlat0 (lat0 lat1 : K) : K :=
  if |lat1 - lat0| < 1e-9 then lat0 + 1e-9 else lat0

/-- `calDistanceStatic`, lines 234-236: the azimuth `C` of the distance block. -/
def calDistanceStatic.distAzimuth (m : Libm K) (lat0 lon0 lat1 lon1 : K) : Option K := do
  let l := calDistanceStatic.lonx lon0 lon1
  let en ← toSM_ECC m lat1 l.2 (calDistanceStatic.mlat0 lat0 lat1) l.1
  pure (m.atan2e en.1 en.2)

/-- `calDistanceStatic`, lines 223-246: the value stored in `*dist` (nautical miles). -/
def calDistanceStatic.dist (m : Libm K) (lat0 lon0 lat1 lon1 : K) : Option K := do
  let C ← calDistanceStatic.distAzimuth m lat0 lon0 lat1 lon1
  if m.cos C ≠ 0 then
    let dlat : K := (lat1 - calDistanceStatic.mlat0 lat0 lat1) * 60
    pure (dlat / m.cos C)
  else
    DistGreatCircle m lat0 lon0 lat1 lon1

/-- `calDistanceStatic`, lines 255-261: the bearing stored in `*brg` for the azimuth
`C`. -/
def calDistanceStatic.brgOfAzimuth (C : K) : K :=
  let brgt : K := 180 + C * 180 / PI
  if brgt < 0 then brgt + 360
  else if brgt ≥ 360 then brgt - 360
  else brgt

/-- `calDistanceStatic`, lines 249-262: the value stored in `*brg` (degrees). -/
def calDistanceStatic.brg (m : Libm K) (lat0 lon0 lat1 lon1 : K) : Option K := do
  let l := calDistanceStatic.lonx lon0 lon1
  let en ← toSM_ECC m lat1 l.2 lat0 l.1
  pure (calDistanceStatic.brgOfAzimuth (m.atan2e en.1 en.2))

/-- `calDistanceStatic` called with both output pointers set, as `ToOdometryData` does:
returns `(*brg, *dist)`. -/
def calDistanceStatic (m : Libm K) (lat0 lon0 lat1 lon1 : K) : Option K × Option K :=
  (calDistanceStatic.brg m lat0 lon0 lat1 lon1, calDistanceStatic.dist m lat0 lon0 lat1 lon1)

/-! ## Position tracker: `SensorBridge::ToOdometryData` -/

/-- The members of `SensorBridge` read or written by `ToOdometryData`. -/
structure SensorBridge (K : Type) where
  first_tag_gps_ : Bool
  first_lat_ : K
  first_lon_ : K
  real_time_lat_ : K
  real_time_lon_ : K

/-- `SensorBridge::ToOdometryData` on a message with `pose.pose.position.x = position_x`
and `pose.pose.position.z = position_z`: returns the updated members and the translation
`(relative_pose[0], relative_pose[1])` of the returned pose. -/
def ToOdometryData (m : Libm K) (self : SensorBridge K) (position_x position_z : K) :
    SensorBridge K × Option (K × K) :=
  let self : SensorBridge K :=
    { self with real_time_lat_ := position_x, real_time_lon_ := position_z }
  let self : SensorBridge K :=
    if self.first_tag_gps_ then
      if self.real_time_lat_ ≠ 0 ∨ self.real_time_lon_ ≠ 0 then
        { self with
          first_lat_ := self.real_time_lat_
          first_lon_ := self.real_time_lon_
          first_tag_gps_ := false }
      else self
    else self
  let r := calDistanceStatic m self.real_time_lat_ self.real_time_lon_
    self.first_lat_ self.first_lon_
  let relative_pose : Option (K × K) := do
    let angle ← r.1
    let dist ← r.2
    let dist : K := dist * 1852
    let angle_diff : K := angle
    pure (dist * m.sin (angle_diff * M_PI / 180.0 + M_PI / 2),
      dist * m.cos (angle_diff * M_PI / 180.0 + M_PI / 2))
  (self, relative_pose)

/-- `ToOdometryData` applied to a sequence of fixes `(position_x, position_z)`, one call
per fix; returns the members after the last call. -/
def ToOdometryData.run (m : Libm K) (self : SensorBridge K) (fixes : List (K × K)) :
    SensorBridge K :=
  fixes.foldl (fun st fix => (ToOdometryData m st fix.1 fix.2).1) self

end Geodetic

/-- The exact real functions standing for `<cmath>`; `atan2 y x` is the argument of the
complex number `x + y i`, in `(-pi, pi]`, and the logarithm of zero is minus infinity. -/
noncomputable def realLibm : Libm ℝ where
  sqrt := Real.sqrt
  sin := Real.sin
  cos := Real.cos
  tan := Real.tan
  atan := Real.arctan
  atan2 := fun y x => Complex.arg ⟨x, y⟩
  floor := fun x => (⌊x⌋ : ℝ)
  log := fun x =>
    if 0 < x then some (.fin (Real.log x)) else if x = 0 then some .negInf else none
  pow := fun x y => if 0 < x then some (x ^ y) else none
  acos := fun x => if -1 ≤ x ∧ x ≤ 1 then some (Real.arccos x) else none

/-! ## Geodetic helpers: real-number expressions used in the proofs -/

/-- The eccentricity `e` computed at the start of `toSM_ECC`. -/
noncomputable def eccentricity : ℝ :=
  Real.sqrt (2 * (1.0 / 298.257223563) - (1.0 / 298.257223563) * (1.0 / 298.257223563))

/-- The logarithm that `toSM_ECC` takes for the latitude `lat` (in degrees): the
projected northing is `z` times the difference of two such values. -/
noncomputable def isometricLatitude (lat : ℝ) : ℝ :=
  Real.log (Real.tan (PI / 4 + lat * (PI / 180.0) / 2) *
    ((1 - eccentricity * Real.sin (lat * (PI / 180.0))) /
      (1 + eccentricity * Real.sin (lat * (PI / 180.0)))) ^ (eccentricity / 2))

/-- The same logarithm as a function of the latitude `u` in radians, with the product
and the power taken apart. -/
noncomputable def isometricLatitudeRad (u : ℝ) : ℝ :=
  Real.log (Real.tan (PI / 4 + u / 2)) +
    eccentricity / 2 * (Real.log (1 - eccentricity * Real.sin u) -
      Real.log (1 + eccentricity * Real.sin u))

/-- The derivative of `isometricLatitudeRad` at `u`. -/
noncomputable def isometricLatitudeDeriv (u : ℝ) : ℝ :=
  (1 / Real.cos (PI / 4 + u / 2) ^ 2 * (1 / 2)) / Real.tan (PI / 4 + u / 2) +
    eccentricity / 2 * ((-(eccentricity * Real.cos u)) / (1 - eccentricity * Real.sin u) -
      (eccentricity * Real.cos u) / (1 + eccentricity * Real.sin u))
/-! ## Position tracker: the tangent-plane offset -/

section Pose

variable {K : Type} [LinearOrderedField K]

/-- `ToOdometryData`, lines 322-328: the offset `(relative_pose[0], relative_pose[1])`
computed from the distance `dist` in metres (after `dist *= 1852`) and the bearing
`angle` in degrees. -/
def ToOdometryData.relative_pose (m : Libm K) (dist angle : K) : K × K :=
  let angle_diff : K := angle
  (dist * m.sin (angle_diff * M_PI / 180.0 + M_PI / 2),
    dist * m.cos (angle_diff * M_PI / 180.0 + M_PI / 2))

end Pose
/-! ## Message handlers: data model

`ToImuData`, `HandleImuMessage`, `HandleOdometryMessage` and `HandleRangefinder` call
code that is not part of `sensor_bridge.cc` (the transform lookup of `TfBridge`, the
arithmetic of `Rigid3d` and of Eigen quaternions, `FromRos`,
`TransformTimedPointCloud`); that code is a parameter of the model, collected in
`Collaborators`. A failed `CHECK` ends the process: the model of a handler records the
calls it has made to the transform lookup and to the trajectory builder up to that point
and the check that failed. -/

/-- The checks of `sensor_bridge.cc` whose failure ends the process. -/
inductive FatalError where
  /-- The check `CHECK_NE(frame_id[0], '/')` in `CheckNoLeadingSlash`. -/
  | frame_id_leading_slash
  /-- The check `CHECK_NE(msg->linear_acceleration_covariance[0], -1)` in `ToImuData`. -/
  | linear_acceleration_covariance
  /-- The check `CHECK_NE(msg->angular_velocity_covariance[0], -1)` in `ToImuData`. -/
  | angular_velocity_covariance
  /-- The check `CHECK(sensor_to_tracking->translation().norm() < 1e-5)` in `ToImuData`. -/
  | imu_not_colocated
deriving DecidableEq

/-- `CheckNoLeadingSlash`: returns `frame_id` itself unless its first character is `/`,
in which case the `CHECK_NE` fails. -/
def CheckNoLeadingSlash (frame_id : String) : Except FatalError String :=
  if frame_id.length > 0 then
    if frame_id.get 0 = '/' then Except.error FatalError.frame_id_leading_slash
    else Except.ok frame_id
  else Except.ok frame_id

/-- An `Eigen::Quaterniond`. -/
structure Quaterniond (K : Type) where
  w : K
  x : K
  y : K
  z : K
deriving DecidableEq

/-- The fields of a `sensor_msgs::Imu` message read by `ToImuData`. -/
structure Imu (K : Type) where
  header_stamp : Int
  header_frame_id : String
  orientation : Quaterniond K
  angular_velocity : K × K × K
  angular_velocity_covariance : Fin 9 → K
  linear_acceleration : K × K × K
  linear_acceleration_covariance : Fin 9 → K

/-- A `carto::sensor::ImuData` as built by `ToImuData`. -/
structure ImuData (K : Type) where
  time : Int
  linear_acceleration : K × K × K
  angular_velocity : K × K × K
  orientation : Quaterniond K

/-- The fields of a `nav_msgs::Odometry` message that matter to `HandleOdometryMessage`
(the two frame identifiers are carried by the message but never read). -/
structure Odometry (K : Type) where
  header_stamp : Int
  header_frame_id : String
  child_frame_id : String
  pose_pose_position_x : K
  pose_pose_position_z : K

/-- A `carto::sensor::OdometryData` as built by `ToOdometryData`: the time and the
translation `(relative_pose[0], relative_pose[1], 0)` of the pose (its rotation, the
member `msg_orientiation_`, is left out); `none` when the offset is not a number. -/
structure OdometryData (K : Type) where
  time : Int
  translation : Option (K × K)

/-- The arguments of one call `trajectory_builder_->AddRangefinderData(sensor_id, time,
origin, ranges)`. -/
structure RangefinderData where
  sensor_id : String
  time : Int
  origin : ℚ × ℚ × ℚ
  ranges : List TimedPoint

/-- The code outside `sensor_bridge.cc` that the handlers call. `R` stands for
`Rigid3d`; `LookupToTracking` is `tf_bridge_.LookupToTracking`, with `none` for the null
pointer. -/
structure Collaborators (K R : Type) where
  FromRos : Int → Int
  LookupToTracking : Int → String → Option R
  /-- The value `sensor_to_tracking->translation().norm()`. -/
  translation_norm : R → K
  /-- The product `sensor_to_tracking->rotation() * v` for a vector `v`. -/
  rotate : R → K × K × K → K × K × K
  /-- The product `sensor_to_tracking->rotation() * q` for a quaternion `q`. -/
  rotate_orientation : R → Quaterniond K → Quaterniond K
  /-- The quaternion `q.inverse()`. -/
  inverse : Quaterniond K → Quaterniond K
  /-- The quaternion product `p * q`. -/
  mul : Quaterniond K → Quaterniond K → Quaterniond K
  /-- The vector `sensor_to_tracking->translation().cast<float>()`. -/
  translation : R → ℚ × ℚ × ℚ
  /-- The cloud `TransformTimedPointCloud(ranges, sensor_to_tracking->cast<float>())`. -/
  TransformTimedPointCloud : List TimedPoint → R → List TimedPoint

/-- The members of `SensorBridge` read or written by `ToImuData`. -/
structure SensorBridgeImu (K : Type) where
  first_tag_imu_ : Bool
  first_time_orientiation_ : Quaterniond K
  msg_orientiation_ : Quaterniond K
  real_time_orientiation_ : Quaterniond K

/-- How a call of `ToImuData` ends: the members at that point, the calls
`tf_bridge_.LookupToTracking(time, frame_id)` it has made, and either the returned
pointer (`none` for `nullptr`) or the check that failed. -/
structure ImuOutcome (K : Type) where
  self : SensorBridgeImu K
  lookups : List (Int × String)
  value : Except FatalError (Option (ImuData K))

/-- How a message handler ends: the calls it has made to
`tf_bridge_.LookupToTracking(time, frame_id)`, the calls it has made to
`trajectory_builder_` (their arguments), and the check that failed, if one did. -/
structure Handled (α : Type) where
  lookups : List (Int × String)
  forwarded : List α
  fatal : Option FatalError

/-! ## Message handlers -/

section Handlers

variable {K R : Type} [LinearOrderedField K]

/-- `SensorBridge::ToImuData`. -/
def ToImuData (c : Collaborators K R) (self : SensorBridgeImu K) (msg : Imu K) :
    ImuOutcome K :=
  if msg.linear_acceleration_covariance 0 = -1 then
    ⟨self, [], Except.error FatalError.linear_acceleration_covariance⟩
  else if msg.angular_velocity_covariance 0 = -1 then
    ⟨self, [], Except.error FatalError.angular_velocity_covariance⟩
  else
    let time := c.FromRos msg.header_stamp
    match CheckNoLeadingSlash msg.header_frame_id with
    | Except.error e => ⟨self, [], Except.error e⟩
    | Except.ok frame_id =>
      match c.LookupToTracking time frame_id with
      | none => ⟨self, [(time, frame_id)], Except.ok none⟩
      | some sensor_to_tracking =>
        if c.translation_norm sensor_to_tracking < 1e-5 then
          let self : SensorBridgeImu K := { self with msg_orientiation_ := msg.orientation }
          let self : SensorBridgeImu K :=
            if self.first_tag_imu_ then
              { self with
                first_time_orientiation_ := self.msg_orientiation_
                first_tag_imu_ := false }
            else self
          let self : SensorBridgeImu K :=
            if self.msg_orientiation_.x ≠ 0 ∨ self.msg_orientiation_.y ≠ 0 ∨
                self.msg_orientiation_.z ≠ 0 then
              { self with
                real_time_orientiation_ :=
                  c.mul (c.inverse self.first_time_orientiation_) self.msg_orientiation_ }
            else self
          ⟨self, [(time, frame_id)], Except.ok (some
            { time := time
              linear_acceleration := c.rotate sensor_to_tracking msg.linear_acceleration
              angular_velocity := c.rotate sensor_to_tracking msg.angular_velocity
              orientation := c.rotate_orientation sensor_to_tracking self.msg_orientiation_ })⟩
        else
          ⟨self, [(time, frame_id)], Except.error FatalError.imu_not_colocated⟩

/-- `ToImuData` applied to a sequence of messages, one call per message; returns the
members after the last call. -/
def ToImuData.run (c : Collaborators K R) (self : SensorBridgeImu K) (msgs : List (Imu K)) :
    SensorBridgeImu K :=
  msgs.foldl (fun st msg => (ToImuData c st msg).self) self

/-- `SensorBridge::HandleImuMessage`: returns the members after the call and what the
handler did; a forwarded entry is the argument list of one `AddImuData` call. -/
def HandleImuMessage (c : Collaborators K R) (self : SensorBridgeImu K) (sensor_id : String)
    (msg : Imu K) : SensorBridgeImu K × Handled (String × ImuData K) :=
  let r := ToImuData c self msg
  match r.value with
  | Except.error e => (r.self, ⟨r.lookups, [], some e⟩)
  | Except.ok none => (r.self, ⟨r.lookups, [], none⟩)
  | Except.ok (some imu_data) => (r.self, ⟨r.lookups, [(sensor_id, imu_data)], none⟩)

/-- `SensorBridge::HandleOdometryMessage`: `ToOdometryData` never returns a null pointer,
so `AddOdometerData` is called for every message. -/
def HandleOdometryMessage (m : Libm K) (FromRos : Int → Int) (self : SensorBridge K)
    (sensor_id : String) (msg : Odometry K) :
    SensorBridge K × Handled (String × OdometryData K) :=
  let r := ToOdometryData m self msg.pose_pose_position_x msg.pose_pose_position_z
  (r.1, ⟨[], [(sensor_id, ⟨FromRos msg.header_stamp, r.2⟩)], none⟩)

/-- `SensorBridge::HandleRangefinder`. -/
def HandleRangefinder (c : Collaborators K R) (sensor_id : String) (time : Int)
    (frame_id : String) (ranges : List TimedPoint) : Handled RangefinderData :=
  match CheckNoLeadingSlash frame_id with
  | Except.error e => ⟨[], [], some e⟩
  | Except.ok frame_id =>
    match c.LookupToTracking time frame_id with
    | some sensor_to_tracking =>
      ⟨[(time, frame_id)],
        [⟨sensor_id, time, c.translation sensor_to_tracking,
          c.TransformTimedPointCloud ranges sensor_to_tracking⟩], none⟩
    | none => ⟨[(time, frame_id)], [], none⟩

/-- The calls of `HandleRangefinder` that the loop of `HandleLaserScan` makes, carried
out one after the other; after a failed check nothing more is carried out. -/
def HandleRangefinder.all (c : Collaborators K R) (sensor_id frame_id : String) :
    List Subdivision → Handled RangefinderData
  | [] => ⟨[], [], none⟩
  | s :: rest =>
    let h := HandleRangefinder c sensor_id s.subdivision_time frame_id s.subdivision
    match h.fatal with
    | some _ => h
    | none =>
      let t := HandleRangefinder.all c sensor_id frame_id rest
      ⟨h.lookups ++ t.lookups, h.forwarded ++ t.forwarded, t.fatal⟩

/-- `SensorBridge::HandleLaserScan` together with the `HandleRangefinder` calls it makes:
what reaches the transform lookup and the trajectory builder for one scan. -/
def HandleLaserScan.forwarded (c : Collaborators K R) (FromSeconds : ℚ → Int)
    (num_subdivisions_per_laser_scan_ : Nat) (sensor_id : String) (start_time : Int)
    (frame_id : String) (points : List TimedPoint) : Option (Handled RangefinderData) :=
  (HandleLaserScan FromSeconds num_subdivisions_per_laser_scan_ start_time points).map
    (HandleRangefinder.all c sensor_id frame_id)

end Handlers

/-- Collaborators used to instantiate the theorems: the lookup always succeeds, the
sensor frame coincides with the tracking frame (every rotation and transform is the
identity), `inverse` is the conjugate and `mul` the Hamilton product. -/
def sampleCollaborators : Collaborators ℚ Unit where
  FromRos := fun stamp => stamp
  LookupToTracking := fun _ _ => some ()
  translation_norm := fun _ => 0
  rotate := fun _ v => v
  rotate_orientation := fun _ q => q
  inverse := fun q => ⟨q.w, -q.x, -q.y, -q.z⟩
  mul := fun p q =>
    ⟨p.w * q.w - p.x * q.x - p.y * q.y - p.z * q.z,
      p.w * q.x + p.x * q.w + p.y * q.z - p.z * q.y,
      p.w * q.y - p.x * q.z + p.y * q.w + p.z * q.x,
      p.w * q.z + p.x * q.y - p.y * q.x + p.z * q.w⟩
  translation := fun _ => (0, 0, 0)
  TransformTimedPointCloud := fun ranges _ => ranges

/-- An IMU message with the orientation `q`, used to instantiate the theorems. -/
def sampleImu (q : Quaterniond ℚ) : Imu ℚ where
  header_stamp := 0
  header_frame_id := "imu_link"
  orientation := q
  angular_velocity := (0, 0, 0)
  angular_velocity_covariance := fun _ => 0
  linear_acceleration := (0, 0, 0)
  linear_acceleration_covariance := fun _ => 0

/-! ## Scan subdivision: the loop under the `size_t` range -/

/-- The `size_t` products of the loop do not wrap for any scan a message can carry: a
ROS array has a 32-bit length and the subdivision count is an `int`. -/
theorem size_t_product_fits (len N : Nat) (hlen : len < 2 ^ 32) (hN : N < 2 ^ 31) :
    len * N < SIZE_MOD := by
  have h : len * N ≤ 2 ^ 32 * 2 ^ 31 :=
    Nat.mul_le_mul (Nat.le_of_lt hlen) (Nat.le_of_lt hN)
  have h2 : 2 ^ 32 * 2 ^ 31 < SIZE_MOD := by decide
  omega

theorem HandleLaserScan.loop_spec (FromSeconds : ℚ → Int) (N : Nat) (start_time : Int)
    (points : List TimedPoint) (hN : 1 ≤ N) (hfit : points.length * N < SIZE_MOD) :
    ∀ k i, i + k = N → ∃ subs,
      HandleLaserScan.loop FromSeconds N start_time points k i = some subs ∧
      Contiguous (points.length * i / N) subs points.length ∧
      (∀ s ∈ subs, IsSubdivisionOf FromSeconds N start_time points s) ∧
      subs.map (fun s => (s.start_index, s.end_index)) =
        nonEmptyRanges points.length N i k := by
  intro k
  induction k with
  | zero =>
    intro i hi
    have hiN : i = N := by omega
    refine ⟨[], rfl, ?_, by simp, by simp [nonEmptyRanges]⟩
    show points.length * i / N = points.length
    rw [hiN]
    exact Nat.mul_div_cancel _ (by omega)
  | succ k ih =>
    intro i hi
    obtain ⟨rest, hrest, hc, hall, hmap⟩ := ih (i + 1) (by omega)
    have h1 : points.length * i % SIZE_MOD = points.length * i :=
      Nat.mod_eq_of_lt (lt_of_le_of_lt (Nat.mul_le_mul_left _ (by omega)) hfit)
    have h2 : points.length * (i + 1) % SIZE_MOD = points.length * (i + 1) :=
      Nat.mod_eq_of_lt (lt_of_le_of_lt (Nat.mul_le_mul_left _ (by omega)) hfit)
    have hle : points.length * i / N ≤ points.length * (i + 1) / N :=
      Nat.div_le_div_right (Nat.mul_le_mul_left _ (by omega))
    have hlen : points.length * (i + 1) / N ≤ points.length := by
      calc points.length * (i + 1) / N ≤ points.length * N / N :=
            Nat.div_le_div_right (Nat.mul_le_mul_left _ (by omega))
        _ = points.length := Nat.mul_div_cancel _ (by omega)
    have hsum : (points.length * i / N + points.length * (i + 1) / N) % SIZE_MOD =
        points.length * i / N + points.length * (i + 1) / N := by
      apply Nat.mod_eq_of_lt
      rcases Nat.lt_or_ge N 2 with h | h
      · have hN1 : N = 1 := by omega
        have hi0 : i = 0 := by omega
        subst hN1; subst hi0
        simp only [Nat.mul_zero, Nat.zero_div, Nat.zero_add, Nat.mul_one, Nat.div_one] at *
        exact hfit
      · have : points.length * 2 ≤ points.length * N := Nat.mul_le_mul_left _ h
        omega
    have hranges : nonEmptyRanges points.length N i (k + 1) =
        if points.length * i / N = points.length * (i + 1) / N then
          nonEmptyRanges points.length N (i + 1) k
        else (points.length * i / N, points.length * (i + 1) / N) ::
          nonEmptyRanges points.length N (i + 1) k := by
      simp only [nonEmptyRanges, List.range'_succ, List.map_cons, List.filter_cons]
      by_cases h : points.length * i / N = points.length * (i + 1) / N <;> simp [h]
    rw [HandleLaserScan.loop]
    simp only [h1, h2, hsum, hle, hlen, and_self, if_true]
    by_cases heq : points.length * i / N = points.length * (i + 1) / N
    · rw [if_pos heq]
      refine ⟨rest, hrest, ?_, hall, ?_⟩
      · rw [heq]; exact hc
      · rw [hranges, if_pos heq]; exact hmap
    · rw [if_neg heq]
      have hlt : points.length * i / N < points.length * (i + 1) / N := by omega
      have hmid : (points.length * i / N + points.length * (i + 1) / N) / 2 <
          points.length := by omega
      obtain ⟨p, hp⟩ : ∃ p, points[(points.length * i / N +
          points.length * (i + 1) / N) / 2]? = some p :=
        ⟨_, List.getElem?_eq_getElem hmid⟩
      rw [hp, hrest]
      refine ⟨_, rfl, ⟨rfl, hlt, hc⟩, ?_, ?_⟩
      · intro s hs
        rcases List.mem_cons.1 hs with h | h
        · subst h
          exact ⟨⟨i, by omega, rfl, rfl⟩, rfl, p, hp, rfl⟩
        · exact hall s h
      · rw [hranges, if_neg heq, List.map_cons, hmap]

/-! ## Consequences of contiguity -/

theorem Contiguous.le : ∀ (subs : List Subdivision) (a b : Nat), Contiguous a subs b → a ≤ b
  | [], a, b, h => le_of_eq h
  | s :: rest, a, b, h => by
    obtain ⟨_, h2, h3⟩ := h
    have := Contiguous.le rest _ _ h3
    omega

theorem Contiguous.bounds : ∀ (subs : List Subdivision) (a b : Nat), Contiguous a subs b →
    ∀ s ∈ subs, a ≤ s.start_index ∧ s.start_index < s.end_index ∧ s.end_index ≤ b
  | [], _, _, _ => by simp
  | t :: rest, a, b, h => by
    obtain ⟨h1, h2, h3⟩ := h
    intro s hs
    rcases List.mem_cons.1 hs with h | h
    · subst h
      have := Contiguous.le rest _ _ h3
      omega
    · have := Contiguous.bounds rest _ _ h3 s h
      omega

theorem Contiguous.pairwise : ∀ (subs : List Subdivision) (a b : Nat), Contiguous a subs b →
    subs.Pairwise (fun s t : Subdivision => s.end_index ≤ t.start_index)
  | [], _, _, _ => List.Pairwise.nil
  | s :: rest, a, b, h => by
    have h3 := h.2.2
    refine List.Pairwise.cons ?_ (Contiguous.pairwise rest _ _ h3)
    intro t ht
    exact (Contiguous.bounds rest _ _ h3 t ht).1

theorem Contiguous.length_le : ∀ (subs : List Subdivision) (a b : Nat),
    Contiguous a subs b → subs.length + a ≤ b
  | [], a, b, h => by
    have : a = b := h
    simp [this]
  | s :: rest, a, b, h => by
    obtain ⟨h1, h2, h3⟩ := h
    have := Contiguous.length_le rest _ _ h3
    simp only [List.length_cons]
    omega

/-- In a cloud whose relative times are non-decreasing along the sequence, a point at a
smaller or equal index has a smaller or equal relative time. -/
theorem time_le_of_index_le (points : List TimedPoint)
    (htimes : points.Pairwise (fun p q => p.time ≤ q.time)) (i j : Nat) (hij : i ≤ j)
    (p q : TimedPoint) (hp : points[i]? = some p) (hq : points[j]? = some q) :
    p.time ≤ q.time := by
  rcases Nat.lt_or_ge i j with hlt | hge
  · obtain ⟨hi, rfl⟩ := List.getElem?_eq_some.1 hp
    obtain ⟨hj, rfl⟩ := List.getElem?_eq_some.1 hq
    exact (List.pairwise_iff_getElem.1 htimes) i j hi hj hlt
  · have : i = j := by omega
    subst this
    rw [hp] at hq
    cases hq
    exact le_refl _

/-! ## Scan subdivision: the claims -/

/-- C2. Representative timestamps are non-decreasing. For every point sequence (non-empty
or not) whose relative times are non-decreasing along the sequence, every `N >= 1` (with
the `size_t` product `len * N` in range) and every monotone tick conversion
`FromSeconds`, each forwarded subdivision carries the time
`start_time + FromSeconds(points[m][3])` with `m = (start_index + end_index) / 2`, and
these times are non-decreasing in the order the subdivisions are forwarded. -/
theorem HandleLaserScan_times_nondecreasing (FromSeconds : ℚ → Int)
    (hmono : Monotone FromSeconds) (N : Nat) (start_time : Int)
    (points : List TimedPoint) (hN : 1 ≤ N)
    (hfit : points.length * N < SIZE_MOD)
    (htimes : (points.map (fun p => p.time)).Sorted (· ≤ ·)) :
    ∃ subs, HandleLaserScan FromSeconds N start_time points = some subs ∧
      (∀ s ∈ subs, ∃ p, points[(s.start_index + s.end_index) / 2]? = some p ∧
        s.subdivision_time = start_time + FromSeconds p.time) ∧
      (subs.map (fun s => s.subdivision_time)).Sorted (· ≤ ·) := by
  obtain ⟨subs, hsubs, hc, hall, -⟩ :=
    HandleLaserScan.loop_spec FromSeconds N start_time points hN hfit N 0 (by omega)
  have htimes2 : points.Pairwise (fun p q => p.time ≤ q.time) :=
    List.pairwise_map.1 htimes
  refine ⟨subs, hsubs, fun s hs => (hall s hs).2.2, ?_⟩
  refine List.pairwise_map.2 ?_
  refine List.Pairwise.imp_of_mem ?_ (hc.pairwise _ _ _)
  intro s t hs ht hst
  obtain ⟨p, hp, hsp⟩ := (hall s hs).2.2
  obtain ⟨q, hq, htq⟩ := (hall t ht).2.2
  have hbs := hc.bounds _ _ _ s hs
  have hbt := hc.bounds _ _ _ t ht
  have hmid : (s.start_index + s.end_index) / 2 ≤ (t.start_index + t.end_index) / 2 := by
    omega
  have := hmono (time_le_of_index_le points htimes2 _ _ hmid p q hp hq)
  rw [hsp, htq]
  omega

/-- C3, as amended. With subdivision count `N = 1`, for every non-empty input point
sequence (of a length that fits `size_t`) `HandleLaserScan` forwards exactly one
subdivision; its index range is `[0, len)`, its sub-cloud is the whole input in the
original order, and its time is taken from the point at index `len / 2`. -/
theorem HandleLaserScan_one_subdivision (FromSeconds : ℚ → Int) (start_time : Int)
    (points : List TimedPoint) (hne : points ≠ [])
    (hfit : points.length < SIZE_MOD) :
    ∃ p, points[points.length / 2]? = some p ∧
      HandleLaserScan FromSeconds 1 start_time points =
        some [⟨0, points.length, start_time + FromSeconds p.time, points⟩] := by
  have hpos : 0 < points.length := List.length_pos.2 hne
  have hmid : points.length / 2 < points.length := by omega
  refine ⟨points[points.length / 2], List.getElem?_eq_getElem hmid, ?_⟩
  have h1 : points.length % SIZE_MOD = points.length := Nat.mod_eq_of_lt hfit
  have h0 : (0 : Nat) ≠ points.length := by omega
  simp [HandleLaserScan, HandleLaserScan.loop, h1, h0, List.getElem?_eq_getElem hmid]

/-- C3, counterexample. With `N = 1` and an empty point sequence the single candidate
range `[0, 0)` is skipped: `HandleLaserScan` forwards no subdivision at all, rather than
exactly one. -/
theorem HandleLaserScan_one_subdivision_empty_input :
    HandleLaserScan sampleFromSeconds 1 0 [] = some [] ∧
      ¬ ∃ s, HandleLaserScan sampleFromSeconds 1 0 [] = some [s] := by
  have h : HandleLaserScan sampleFromSeconds 1 0 [] = some [] := rfl
  refine ⟨h, ?_⟩
  rintro ⟨s, hs⟩
  rw [h] at hs
  cases hs

/-- C4. When the subdivision count `N` exceeds the number of points `len` (with the
`size_t` product `len * N` in range), `HandleLaserScan` returns normally, forwards
exactly the candidate ranges with `start_index != end_index` (nothing is forwarded for a
candidate with `start_index == end_index`), and the number of forwarded subdivisions is
strictly less than `N`. -/
theorem HandleLaserScan_more_subdivisions_than_points (FromSeconds : ℚ → Int) (N : Nat)
    (start_time : Int) (points : List TimedPoint) (hgt : points.length < N)
    (hfit : points.length * N < SIZE_MOD) :
    ∃ subs, HandleLaserScan FromSeconds N start_time points = some subs ∧
      subs.map (fun s => (s.start_index, s.end_index)) =
        ((List.range N).map (fun i => (points.length * i / N,
          points.length * (i + 1) / N))).filter (fun r => decide (r.1 ≠ r.2)) ∧
      (∀ s ∈ subs, s.start_index ≠ s.end_index) ∧
      subs.length < N := by
  obtain ⟨subs, hsubs, hc, -, hmap⟩ :=
    HandleLaserScan.loop_spec FromSeconds N start_time points (by omega) hfit N 0
      (by omega)
  have hc0 : Contiguous 0 subs points.length := by simpa using hc
  refine ⟨subs, hsubs, ?_, ?_, ?_⟩
  · rw [hmap, nonEmptyRanges, List.range_eq_range']
  · intro s hs
    have := (hc0.bounds _ _ _ s hs).2.1
    omega
  · have := hc0.length_le _ _ _
    omega

/-! ## Scan subdivision: instances of the theorems -/

theorem sampleFromSeconds_monotone : Monotone sampleFromSeconds := by
  intro a b hab
  unfold sampleFromSeconds
  exact Int.floor_mono (mul_le_mul_of_nonneg_right hab (by norm_num))

theorem samplePoints_sorted : (samplePoints.map (fun p => p.time)).Sorted (· ≤ ·) := by
  simp only [samplePoints, List.map_cons, List.map_nil, List.Sorted, List.pairwise_cons,
    List.mem_cons, List.mem_singleton]
  norm_num

/-- C2 at the sample cloud of three points with `N = 2`. -/
theorem HandleLaserScan_times_nondecreasing_witness :
    Monotone sampleFromSeconds ∧ 1 ≤ 2 ∧ samplePoints.length * 2 < SIZE_MOD ∧
    (samplePoints.map (fun p => p.time)).Sorted (· ≤ ·) ∧
    ∃ subs, HandleLaserScan sampleFromSeconds 2 0 samplePoints = some subs ∧
      (∀ s ∈ subs, ∃ p, samplePoints[(s.start_index + s.end_index) / 2]? = some p ∧
        s.subdivision_time = 0 + sampleFromSeconds p.time) ∧
      (subs.map (fun s => s.subdivision_time)).Sorted (· ≤ ·) :=
  ⟨sampleFromSeconds_monotone, by decide, by decide, samplePoints_sorted,
    HandleLaserScan_times_nondecreasing sampleFromSeconds sampleFromSeconds_monotone 2 0
      samplePoints (by decide) (by decide) samplePoints_sorted⟩

/-- C3 (amended) at the sample cloud of three points. -/
theorem HandleLaserScan_one_subdivision_witness :
    samplePoints ≠ [] ∧ samplePoints.length < SIZE_MOD ∧
    ∃ p, samplePoints[samplePoints.length / 2]? = some p ∧
      HandleLaserScan sampleFromSeconds 1 0 samplePoints =
        some [⟨0, samplePoints.length, 0 + sampleFromSeconds p.time, samplePoints⟩] :=
  ⟨by decide, by decide,
    HandleLaserScan_one_subdivision sampleFromSeconds 0 samplePoints (by decide)
      (by decide)⟩

/-- C4 at the sample cloud of three points with `N = 5`. -/
theorem HandleLaserScan_more_subdivisions_than_points_witness :
    samplePoints.length < 5 ∧ samplePoints.length * 5 < SIZE_MOD ∧
    ∃ subs, HandleLaserScan sampleFromSeconds 5 0 samplePoints = some subs ∧
      subs.map (fun s => (s.start_index, s.end_index)) =
        ((List.range 5).map (fun i => (samplePoints.length * i / 5,
          samplePoints.length * (i + 1) / 5))).filter (fun r => decide (r.1 ≠ r.2)) ∧
      (∀ s ∈ subs, s.start_index ≠ s.end_index) ∧
      subs.length < 5 :=
  ⟨by decide, by decide,
    HandleLaserScan_more_subdivisions_than_points sampleFromSeconds 5 0 samplePoints
      (by decide) (by decide)⟩

/-! ## Position tracker: origin capture -/

section Tracker

variable {K : Type} [LinearOrderedField K]

/-- The members after one call of `ToOdometryData`. -/
theorem ToOdometryData_members (m : Libm K) (self : SensorBridge K) (x z : K) :
    (ToOdometryData m self x z).1 =
      if self.first_tag_gps_ = true ∧ (x ≠ 0 ∨ z ≠ 0) then
        { first_tag_gps_ := false, first_lat_ := x, first_lon_ := z,
          real_time_lat_ := x, real_time_lon_ := z }
      else { self with real_time_lat_ := x, real_time_lon_ := z } := by
  unfold ToOdometryData
  by_cases h1 : self.first_tag_gps_ = true <;> by_cases h2 : (x ≠ 0 ∨ z ≠ 0) <;>
    simp [h1, h2]

/-- Once the origin is captured, no sequence of calls changes it. -/
theorem ToOdometryData.run_captured (m : Libm K) (fixes : List (K × K)) :
    ∀ self : SensorBridge K, self.first_tag_gps_ = false →
      (ToOdometryData.run m self fixes).first_tag_gps_ = false ∧
      (ToOdometryData.run m self fixes).first_lat_ = self.first_lat_ ∧
      (ToOdometryData.run m self fixes).first_lon_ = self.first_lon_ := by
  induction fixes with
  | nil => intro self h; exact ⟨h, rfl, rfl⟩
  | cons f rest ih =>
    intro self h
    have hstep : (ToOdometryData m self f.1 f.2).1 =
        { self with real_time_lat_ := f.1, real_time_lon_ := f.2 } := by
      rw [ToOdometryData_members]; simp [h]
    have := ih (ToOdometryData m self f.1 f.2).1 (by rw [hstep]; exact h)
    simp only [ToOdometryData.run, List.foldl_cons] at this ⊢
    rw [hstep] at this ⊢
    exact this

/-- C10. Origin capture of the position tracker. Starting from a state in which the
origin is not captured (`first_tag_gps_` set), after `ToOdometryData` has processed any
sequence of fixes the stored origin `(first_lat_, first_lon_)` is the first fix of the
sequence that is not exactly `(0, 0)` if there is one (and the flag is cleared), and is
the initial value otherwise (and the flag is still set); a call with the fix `(0, 0)`
leaves origin and flag as they are; and once the flag is cleared no sequence of later
fixes changes the origin. -/
theorem ToOdometryData_origin_capture (m : Libm K) (self : SensorBridge K)
    (hfresh : self.first_tag_gps_ = true) (fixes : List (K × K)) :
    (match fixes.find? (fun fix => decide (fix.1 ≠ 0 ∨ fix.2 ≠ 0)) with
      | some fix =>
        (ToOdometryData.run m self fixes).first_tag_gps_ = false ∧
        (ToOdometryData.run m self fixes).first_lat_ = fix.1 ∧
        (ToOdometryData.run m self fixes).first_lon_ = fix.2
      | none =>
        (ToOdometryData.run m self fixes).first_tag_gps_ = true ∧
        (ToOdometryData.run m self fixes).first_lat_ = self.first_lat_ ∧
        (ToOdometryData.run m self fixes).first_lon_ = self.first_lon_) ∧
    (∀ st : SensorBridge K,
      (ToOdometryData m st 0 0).1.first_tag_gps_ = st.first_tag_gps_ ∧
      (ToOdometryData m st 0 0).1.first_lat_ = st.first_lat_ ∧
      (ToOdometryData m st 0 0).1.first_lon_ = st.first_lon_) ∧
    (∀ (st : SensorBridge K) (later : List (K × K)), st.first_tag_gps_ = false →
      (ToOdometryData.run m st later).first_tag_gps_ = false ∧
      (ToOdometryData.run m st later).first_lat_ = st.first_lat_ ∧
      (ToOdometryData.run m st later).first_lon_ = st.first_lon_) := by
  refine ⟨?_, ?_, fun st later h => ToOdometryData.run_captured m later st h⟩
  · induction fixes generalizing self with
    | nil => exact ⟨hfresh, rfl, rfl⟩
    | cons f rest ih =>
      by_cases hf : f.1 ≠ 0 ∨ f.2 ≠ 0
      · have hstep : (ToOdometryData m self f.1 f.2).1 =
            { first_tag_gps_ := false, first_lat_ := f.1, first_lon_ := f.2,
              real_time_lat_ := f.1, real_time_lon_ := f.2 } := by
          rw [ToOdometryData_members]; simp [hfresh, hf]
        have hrun := ToOdometryData.run_captured m rest (ToOdometryData m self f.1 f.2).1
          (by rw [hstep])
        rw [List.find?_cons_of_pos _ (by simpa using hf)]
        simp only [ToOdometryData.run, List.foldl_cons] at hrun ⊢
        rw [hstep] at hrun ⊢
        exact hrun
      · have hstep : (ToOdometryData m self f.1 f.2).1 =
            { self with real_time_lat_ := f.1, real_time_lon_ := f.2 } := by
          rw [ToOdometryData_members]; simp [hf]
        have := ih (ToOdometryData m self f.1 f.2).1 (by rw [hstep]; exact hfresh)
        rw [List.find?_cons_of_neg _ (by simpa using hf)]
        simp only [ToOdometryData.run, List.foldl_cons] at this ⊢
        rw [hstep] at this ⊢
        exact this
  · intro st
    rw [ToOdometryData_members]
    simp

end Tracker

/-- C10 at a fresh tracker fed the fixes `(0, 0)`, `(10, 20)`, `(11, 21)`. -/
theorem ToOdometryData_origin_capture_witness :
    (⟨true, 0, 0, 0, 0⟩ : SensorBridge ℝ).first_tag_gps_ = true ∧
    (ToOdometryData.run realLibm ⟨true, 0, 0, 0, 0⟩
      [(0, 0), (10, 20), (11, 21)]).first_lat_ = 10 ∧
    (ToOdometryData.run realLibm ⟨true, 0, 0, 0, 0⟩
      [(0, 0), (10, 20), (11, 21)]).first_lon_ = 20 := by
  have h := (ToOdometryData_origin_capture realLibm (⟨true, 0, 0, 0, 0⟩ : SensorBridge ℝ)
    rfl [(0, 0), (10, 20), (11, 21)]).1
  have hfind : List.find? (fun fix : ℝ × ℝ => decide (fix.1 ≠ 0 ∨ fix.2 ≠ 0))
      [(0, 0), (10, 20), (11, 21)] = some (10, 20) := by
    rw [List.find?_cons_of_neg _ (by simp), List.find?_cons_of_pos _ (by simp)]
  rw [hfind] at h
  exact ⟨rfl, h.2.1, h.2.2⟩

/-! ## Geodetic helpers: auxiliary inequalities -/

/-- Sine and cosine are Lipschitz with constant one. -/
theorem abs_trig_sub_le (x y : ℝ) :
    |Real.sin x - Real.sin y| ≤ |x - y| ∧ |Real.cos x - Real.cos y| ≤ |x - y| := by
  have h1 : |Real.sin ((x - y) / 2)| ≤ |(x - y) / 2| := Real.abs_sin_le_abs
  have h3 : |(x - y) / 2| = |x - y| / 2 := by rw [abs_div, abs_two]
  have h4 : (0 : ℝ) ≤ |Real.sin ((x - y) / 2)| := abs_nonneg _
  constructor
  · rw [Real.sin_sub_sin, abs_mul, abs_mul, abs_two]
    have h2 : |Real.cos ((x + y) / 2)| ≤ 1 := Real.abs_cos_le_one _
    have h5 : (0 : ℝ) ≤ |Real.cos ((x + y) / 2)| := abs_nonneg _
    nlinarith
  · rw [Real.cos_sub_cos, abs_mul, abs_mul]
    have h2 : |Real.sin ((x + y) / 2)| ≤ 1 := Real.abs_sin_le_one _
    have h5 : (0 : ℝ) ≤ |Real.sin ((x + y) / 2)| := abs_nonneg _
    have h6 : |(-2 : ℝ)| = 2 := by norm_num
    rw [h6]
    nlinarith

/-- The eccentricity term `k c / (1 - k s^2)` is small. -/
theorem eccTerm_abs_le (k c s : ℝ) (hk0 : 0 < k) (hk : k ≤ 67 / 10000) (hc : |c| ≤ 1)
    (hs : |s| ≤ 1) : |k * c / (1 - k * s ^ 2)| ≤ 68 / 10000 := by
  have hs2 : s ^ 2 ≤ 1 := by
    have := abs_le.1 hs
    nlinarith
  have hden : 0 < 1 - k * s ^ 2 := by nlinarith [sq_nonneg s]
  rw [abs_div, abs_of_pos hden, div_le_iff₀ hden, abs_mul, abs_of_pos hk0]
  have h1 : k * |c| ≤ k := by nlinarith [abs_nonneg c]
  nlinarith [sq_nonneg s]

/-! ## Geodetic helpers: constants -/

/-- The constant `PI` lies just below `pi`. -/
theorem PI_bounds :
    (3 : ℝ) < PI ∧ (PI : ℝ) < 4 ∧ (PI : ℝ) < Real.pi ∧ Real.pi - (PI : ℝ) < 2 / 10 ^ 16 := by
  have h1 := Real.pi_gt_d20
  have h2 := Real.pi_lt_d20
  unfold PI
  refine ⟨by norm_num, by norm_num, lt_trans (by norm_num) h1, ?_⟩
  have h : (3.14159265358979323847 : ℝ) - 3.1415926535897931160 < 2 / 10 ^ 16 := by
    norm_num
  linarith

theorem eccentricity_bounds :
    0 < eccentricity ∧ eccentricity < 1 / 10 ∧ eccentricity ^ 2 ≤ 67 / 10000 := by
  have hsq : eccentricity ^ 2 =
      2 * (1.0 / 298.257223563) - (1.0 / 298.257223563) * (1.0 / 298.257223563) := by
    unfold eccentricity
    rw [Real.sq_sqrt]
    norm_num
  have hpos : 0 < eccentricity := by
    unfold eccentricity
    apply Real.sqrt_pos.2
    norm_num
  refine ⟨hpos, ?_, ?_⟩
  · by_contra hcon
    push_neg at hcon
    have : (1 / 10 : ℝ) ^ 2 ≤ eccentricity ^ 2 := pow_le_pow_left₀ (by norm_num) hcon 2
    rw [hsq] at this
    norm_num at this
  · rw [hsq]
    norm_num

theorem ecc_sin_pos (u : ℝ) :
    0 < 1 - eccentricity * Real.sin u ∧ 0 < 1 + eccentricity * Real.sin u := by
  have h1 := Real.sin_le_one u
  have h2 := Real.neg_one_le_sin u
  obtain ⟨h3, h4, -⟩ := eccentricity_bounds
  constructor <;> nlinarith

/-! ## Geodetic helpers: the projection in closed form -/

/-- The latitudes at which the tangent in `toSM_ECC` is taken inside `(0, pi/2)`; every
latitude in `(-90, 90]` is one. -/
theorem tan_arg_mem (lat : ℝ) (h1 : -90 < lat) (h2 : lat ≤ 90) :
    0 < (PI : ℝ) / 4 + lat * (PI / 180.0) / 2 ∧
      (PI : ℝ) / 4 + lat * (PI / 180.0) / 2 < Real.pi / 2 := by
  obtain ⟨hP, -, hlt, -⟩ := PI_bounds
  constructor
  · have : (PI : ℝ) / 4 + lat * (PI / 180.0) / 2 = PI / 360 * (lat + 90) := by
      norm_num; ring
    rw [this]
    apply mul_pos (by linarith) (by linarith)
  · have : (PI : ℝ) / 4 + lat * (PI / 180.0) / 2 = PI / 2 - PI / 360 * (90 - lat) := by
      norm_num; ring
    rw [this]
    have : 0 ≤ (PI : ℝ) / 360 * (90 - lat) := mul_nonneg (by linarith) (by linarith)
    linarith

theorem fdiv_of_ne {K : Type} [LinearOrderedField K] (a b : K) (h : b ≠ 0) :
    fdiv a b = some (a / b) := by
  simp [fdiv, h]

/-- The exact functions behind `realLibm`. -/
theorem realLibm_apply :
    (∀ x : ℝ, realLibm.cos x = Real.cos x) ∧
    (∀ x : ℝ, realLibm.sin x = Real.sin x) ∧
    (∀ y x : ℝ, realLibm.atan2 y x = Complex.arg ⟨x, y⟩) ∧
    (∀ x : ℝ, 0 < x → realLibm.log x = some (Extended.fin (Real.log x))) ∧
    (∀ x : ℝ, x < 0 → realLibm.log x = none) ∧
    (∀ x y : ℝ, 0 < x → realLibm.pow x y = some (x ^ y)) := by
  refine ⟨fun _ => rfl, fun _ => rfl, fun _ _ => rfl, ?_, ?_, ?_⟩
  · intro x h
    simp [realLibm, h]
  · intro x h
    simp [realLibm, not_lt.2 h.le, h.ne]
  · intro x y h
    simp [realLibm, h]

/-- The term whose logarithm `toSM_ECC` takes for a latitude: positive for a latitude in
`(-90, 90]`, zero at the latitude `-90`. -/
theorem log_arg_sign :
    (∀ l : ℝ, -90 < l → l ≤ 90 →
      0 < Real.tan (PI / 4 + l * (PI / 180.0) / 2) *
        ((1 - eccentricity * Real.sin (l * (PI / 180.0))) /
          (1 + eccentricity * Real.sin (l * (PI / 180.0)))) ^ (eccentricity / 2)) ∧
    Real.tan (PI / 4 + (-90 : ℝ) * (PI / 180.0) / 2) *
      ((1 - eccentricity * Real.sin ((-90 : ℝ) * (PI / 180.0))) /
        (1 + eccentricity * Real.sin ((-90 : ℝ) * (PI / 180.0)))) ^ (eccentricity / 2) =
          0 := by
  constructor
  · intro l hl1 hl2
    apply mul_pos (Real.tan_pos_of_pos_of_lt_pi_div_two (tan_arg_mem l hl1 hl2).1
      (tan_arg_mem l hl1 hl2).2)
    exact Real.rpow_pos_of_pos (div_pos (ecc_sin_pos _).1 (ecc_sin_pos _).2) _
  · have h0 : (PI : ℝ) / 4 + (-90 : ℝ) * (PI / 180.0) / 2 = 0 := by
      norm_num
      ring
    rw [h0, Real.tan_zero, zero_mul]

/-- `toSM_ECC` in closed form for latitudes in `(-90, 90]`: the northing is an ordinary
number. -/
theorem toSM_ECC_real_of_mem (lat lon lat0 lon0 : ℝ) (h1 : -90 < lat) (h2 : lat ≤ 90)
    (h3 : -90 < lat0) (h4 : lat0 ≤ 90) :
    toSM_ECC realLibm lat lon lat0 lon0 =
      some ((lon - lon0) * (PI / 180.0) * (6378137.0 * 0.9996),
        Extended.fin (6378137.0 * 0.9996 * isometricLatitude lat -
          6378137.0 * 0.9996 * isometricLatitude lat0)) := by
  have e_eq : realLibm.sqrt (2 * (1.0 / 298.257223563) -
      (1.0 / 298.257223563) * (1.0 / 298.257223563)) = eccentricity := rfl
  have sin_eq : ∀ x, realLibm.sin x = Real.sin x := fun _ => rfl
  have tan_eq : ∀ x, realLibm.tan x = Real.tan x := fun _ => rfl
  simp only [toSM_ECC, e_eq, sin_eq, tan_eq]
  rw [fdiv_of_ne _ _ (ne_of_gt (ecc_sin_pos _).2),
    fdiv_of_ne _ _ (ne_of_gt (ecc_sin_pos _).2)]
  simp only [Option.bind_eq_bind, Option.some_bind]
  rw [realLibm_apply.2.2.2.2.2 _ _ (div_pos (ecc_sin_pos _).1 (ecc_sin_pos _).2),
    realLibm_apply.2.2.2.2.2 _ _ (div_pos (ecc_sin_pos _).1 (ecc_sin_pos _).2)]
  simp only [Option.some_bind]
  rw [realLibm_apply.2.2.2.1 _ (log_arg_sign.1 lat0 h3 h4)]
  simp only [Option.some_bind, Extended.mul]
  rw [realLibm_apply.2.2.2.1 _ (log_arg_sign.1 lat h1 h2)]
  simp only [Option.some_bind, Extended.mul, Extended.sub]
  rfl

/-- `toSM_ECC` at the latitude `-90`: the logarithm taken for that latitude is minus
infinity, so the northing of a point in `(-90, 90]` relative to an origin at `-90` is
plus infinity, the northing of a point at `-90` relative to an origin in `(-90, 90]` is
minus infinity, and with both at `-90` the northing is the difference of two equal
infinities, not a number. -/
theorem toSM_ECC_real_south_pole (lat lon lon0 : ℝ) :
    (-90 < lat → lat ≤ 90 →
      toSM_ECC realLibm lat lon (-90) lon0 =
        some ((lon - lon0) * (PI / 180.0) * (6378137.0 * 0.9996), Extended.posInf)) ∧
    (-90 < lat → lat ≤ 90 →
      toSM_ECC realLibm (-90) lon lat lon0 =
        some ((lon - lon0) * (PI / 180.0) * (6378137.0 * 0.9996), Extended.negInf)) ∧
    toSM_ECC realLibm (-90) lon (-90) lon0 = none := by
  have e_eq : realLibm.sqrt (2 * (1.0 / 298.257223563) -
      (1.0 / 298.257223563) * (1.0 / 298.257223563)) = eccentricity := rfl
  have sin_eq : ∀ x, realLibm.sin x = Real.sin x := fun _ => rfl
  have tan_eq : ∀ x, realLibm.tan x = Real.tan x := fun _ => rfl
  have hlog0 : realLibm.log 0 = some Extended.negInf := by simp [realLibm]
  have hz : (0 : ℝ) < 6378137.0 * 0.9996 := by norm_num
  refine ⟨?_, ?_, ?_⟩
  · intro h1 h2
    simp only [toSM_ECC, e_eq, sin_eq, tan_eq]
    rw [fdiv_of_ne _ _ (ne_of_gt (ecc_sin_pos _).2),
      fdiv_of_ne _ _ (ne_of_gt (ecc_sin_pos _).2)]
    simp only [Option.bind_eq_bind, Option.some_bind]
    rw [realLibm_apply.2.2.2.2.2 _ _ (div_pos (ecc_sin_pos _).1 (ecc_sin_pos _).2),
      realLibm_apply.2.2.2.2.2 _ _ (div_pos (ecc_sin_pos _).1 (ecc_sin_pos _).2)]
    simp only [Option.some_bind]
    rw [log_arg_sign.2, hlog0]
    simp only [Option.some_bind, Extended.mul, hz, if_true]
    rw [realLibm_apply.2.2.2.1 _ (log_arg_sign.1 lat h1 h2)]
    simp only [Option.some_bind, Extended.mul, Extended.sub]
    rfl
  · intro h1 h2
    simp only [toSM_ECC, e_eq, sin_eq, tan_eq]
    rw [fdiv_of_ne _ _ (ne_of_gt (ecc_sin_pos _).2),
      fdiv_of_ne _ _ (ne_of_gt (ecc_sin_pos _).2)]
    simp only [Option.bind_eq_bind, Option.some_bind]
    rw [realLibm_apply.2.2.2.2.2 _ _ (div_pos (ecc_sin_pos _).1 (ecc_sin_pos _).2),
      realLibm_apply.2.2.2.2.2 _ _ (div_pos (ecc_sin_pos _).1 (ecc_sin_pos _).2)]
    simp only [Option.some_bind]
    rw [realLibm_apply.2.2.2.1 _ (log_arg_sign.1 lat h1 h2)]
    simp only [Option.some_bind, Extended.mul]
    rw [log_arg_sign.2, hlog0]
    simp only [Option.some_bind, Extended.mul, Extended.sub, hz, if_true]
    rfl
  · simp only [toSM_ECC, e_eq, sin_eq, tan_eq]
    rw [fdiv_of_ne _ _ (ne_of_gt (ecc_sin_pos _).2)]
    simp only [Option.bind_eq_bind, Option.some_bind]
    rw [realLibm_apply.2.2.2.2.2 _ _ (div_pos (ecc_sin_pos _).1 (ecc_sin_pos _).2)]
    simp only [Option.some_bind]
    rw [log_arg_sign.2, hlog0]
    simp only [Option.some_bind, Extended.mul, Extended.sub, hz, if_true]
    rfl

/-! ## Geodetic helpers: the northing grows with the latitude -/

theorem isometricLatitudeRad_hasDerivAt (u : ℝ) (h1 : 0 < (PI : ℝ) / 4 + u / 2)
    (h2 : (PI : ℝ) / 4 + u / 2 < Real.pi / 2) :
    HasDerivAt isometricLatitudeRad (isometricLatitudeDeriv u) u := by
  have hcos : Real.cos (PI / 4 + u / 2) ≠ 0 :=
    ne_of_gt (Real.cos_pos_of_mem_Ioo ⟨by linarith [Real.pi_pos], h2⟩)
  have htan : Real.tan (PI / 4 + u / 2) ≠ 0 :=
    ne_of_gt (Real.tan_pos_of_pos_of_lt_pi_div_two h1 h2)
  have hv : HasDerivAt (fun x : ℝ => (PI : ℝ) / 4 + x / 2) (1 / 2) u := by
    simpa using ((hasDerivAt_id u).div_const 2).const_add ((PI : ℝ) / 4)
  have hA : HasDerivAt (fun x : ℝ => Real.log (Real.tan (PI / 4 + x / 2)))
      ((1 / Real.cos (PI / 4 + u / 2) ^ 2 * (1 / 2)) / Real.tan (PI / 4 + u / 2)) u :=
    ((Real.hasDerivAt_tan hcos).comp u hv).log htan
  have hs : HasDerivAt (fun x : ℝ => eccentricity * Real.sin x)
      (eccentricity * Real.cos u) u := (Real.hasDerivAt_sin u).const_mul eccentricity
  have hB : HasDerivAt (fun x : ℝ => Real.log (1 - eccentricity * Real.sin x))
      ((-(eccentricity * Real.cos u)) / (1 - eccentricity * Real.sin u)) u :=
    (hs.const_sub 1).log (ne_of_gt (ecc_sin_pos u).1)
  have hC : HasDerivAt (fun x : ℝ => Real.log (1 + eccentricity * Real.sin x))
      ((eccentricity * Real.cos u) / (1 + eccentricity * Real.sin u)) u :=
    (hs.const_add 1).log (ne_of_gt (ecc_sin_pos u).2)
  exact hA.add ((hB.sub hC).const_mul (eccentricity / 2))

/-- The derivative written with `S = sin(PI/2 + u)` and the eccentricity term. -/
theorem isometricLatitudeDeriv_eq (u : ℝ) (h1 : 0 < (PI : ℝ) / 4 + u / 2)
    (h2 : (PI : ℝ) / 4 + u / 2 < Real.pi / 2) :
    isometricLatitudeDeriv u = 1 / Real.sin (PI / 2 + u) -
      eccentricity ^ 2 * Real.cos u / (1 - eccentricity ^ 2 * Real.sin u ^ 2) := by
  have haux : ∀ s c e su cu : ℝ, 0 < s → 0 < c → 0 < 1 - e * su → 0 < 1 + e * su →
      (1 / c ^ 2 * (1 / 2)) / (s / c) +
        e / 2 * ((-(e * cu)) / (1 - e * su) - (e * cu) / (1 + e * su)) =
      1 / (2 * s * c) - e ^ 2 * cu / ((1 - e * su) * (1 + e * su)) := by
    intro s c e su cu hs hc hn hd
    have hs0 := hs.ne'
    have hc0 := hc.ne'
    have hn0 := hn.ne'
    have hd0 := hd.ne'
    field_simp
    ring
  have hcos : 0 < Real.cos (PI / 4 + u / 2) :=
    Real.cos_pos_of_mem_Ioo ⟨by linarith [Real.pi_pos], h2⟩
  have hsin : 0 < Real.sin (PI / 4 + u / 2) :=
    Real.sin_pos_of_pos_of_lt_pi h1 (by linarith [Real.pi_pos])
  have hS : Real.sin (PI / 2 + u) =
      2 * Real.sin (PI / 4 + u / 2) * Real.cos (PI / 4 + u / 2) := by
    rw [← Real.sin_two_mul]
    congr 1
    ring
  have hprod : 1 - eccentricity ^ 2 * Real.sin u ^ 2 =
      (1 - eccentricity * Real.sin u) * (1 + eccentricity * Real.sin u) := by ring
  unfold isometricLatitudeDeriv
  rw [Real.tan_eq_sin_div_cos, hS, hprod]
  exact haux _ _ _ _ _ hsin hcos (ecc_sin_pos u).1 (ecc_sin_pos u).2

/-- The derivative of the isometric latitude is at least `1/2`. -/
theorem isometricLatitudeDeriv_pos (u : ℝ) (h1 : 0 < (PI : ℝ) / 4 + u / 2)
    (h2 : (PI : ℝ) / 4 + u / 2 < Real.pi / 2) : 1 / 2 < isometricLatitudeDeriv u := by
  have hS : 0 < Real.sin (PI / 2 + u) :=
    Real.sin_pos_of_pos_of_lt_pi (by linarith) (by linarith)
  have hS1 : 1 ≤ 1 / Real.sin (PI / 2 + u) := by
    rw [le_div_iff₀ hS]
    linarith [Real.sin_le_one (PI / 2 + u)]
  have hB := eccTerm_abs_le (eccentricity ^ 2) (Real.cos u) (Real.sin u)
    (pow_pos eccentricity_bounds.1 2) eccentricity_bounds.2.2
    (Real.abs_cos_le_one u) (Real.abs_sin_le_one u)
  rw [isometricLatitudeDeriv_eq u h1 h2]
  linarith [(abs_le.1 hB).2]

theorem isometricLatitude_eq (lat : ℝ) (h1 : -90 < lat) (h2 : lat ≤ 90) :
    isometricLatitude lat = isometricLatitudeRad (lat * (PI / 180.0)) := by
  unfold isometricLatitude isometricLatitudeRad
  have ht := Real.tan_pos_of_pos_of_lt_pi_div_two (tan_arg_mem lat h1 h2).1
    (tan_arg_mem lat h1 h2).2
  have hn := (ecc_sin_pos (lat * (PI / 180.0))).1
  have hd := (ecc_sin_pos (lat * (PI / 180.0))).2
  rw [Real.log_mul (ne_of_gt ht) (ne_of_gt (Real.rpow_pos_of_pos (div_pos hn hd) _)),
    Real.log_rpow (div_pos hn hd), Real.log_div (ne_of_gt hn) (ne_of_gt hd)]

/-- A latitude in radians between two latitudes of `(-90, 90]` keeps the tangent argument
inside `(0, pi/2)`. -/
theorem rad_mem_of_between (a b u : ℝ) (ha : -90 < a) (hb : b ≤ 90)
    (h1 : a * (PI / 180.0) ≤ u) (h2 : u ≤ b * (PI / 180.0)) :
    0 < (PI : ℝ) / 4 + u / 2 ∧ (PI : ℝ) / 4 + u / 2 < Real.pi / 2 := by
  have hab : a ≤ b := by
    have hP : (0 : ℝ) < PI / 180.0 := by have := PI_bounds.1; positivity
    by_contra hcon
    push_neg at hcon
    have := mul_lt_mul_of_pos_right hcon hP
    linarith
  have hA := tan_arg_mem a ha (le_trans hab hb)
  have hB := tan_arg_mem b (lt_of_lt_of_le ha hab) hb
  constructor <;> linarith [hA.1, hB.2]

/-- Mean value form of the northing difference: between two latitudes of `(-90, 90]`
the isometric latitude grows by its derivative at some intermediate latitude `ξ` (in
radians) times the latitude difference. -/
theorem isometricLatitude_slope (a b : ℝ) (hab : a < b) (ha : -90 < a) (hb : b ≤ 90) :
    ∃ ξ, a * (PI / 180.0) < ξ ∧ ξ < b * (PI / 180.0) ∧
      isometricLatitude b - isometricLatitude a =
        isometricLatitudeDeriv ξ * ((b - a) * (PI / 180.0)) := by
  have hP : (0 : ℝ) < PI / 180.0 := by have := PI_bounds.1; positivity
  have hlt : a * ((PI : ℝ) / 180.0) < b * (PI / 180.0) := mul_lt_mul_of_pos_right hab hP
  have hmem : ∀ u ∈ Set.Icc (a * ((PI : ℝ) / 180.0)) (b * (PI / 180.0)),
      0 < (PI : ℝ) / 4 + u / 2 ∧ (PI : ℝ) / 4 + u / 2 < Real.pi / 2 :=
    fun u hu => rad_mem_of_between a b u ha hb hu.1 hu.2
  obtain ⟨ξ, hξ, hslope⟩ := exists_hasDerivAt_eq_slope isometricLatitudeRad
    isometricLatitudeDeriv hlt
    (fun u hu => (isometricLatitudeRad_hasDerivAt u (hmem u hu).1
      (hmem u hu).2).continuousAt.continuousWithinAt)
    (fun u hu => isometricLatitudeRad_hasDerivAt u
      (hmem u ⟨hu.1.le, hu.2.le⟩).1 (hmem u ⟨hu.1.le, hu.2.le⟩).2)
  refine ⟨ξ, hξ.1, hξ.2, ?_⟩
  rw [isometricLatitude_eq a ha (le_trans hab.le hb),
    isometricLatitude_eq b (lt_trans ha hab) hb, hslope]
  have hne : b * ((PI : ℝ) / 180.0) - a * (PI / 180.0) ≠ 0 := by linarith
  have hsub : (b - a) * ((PI : ℝ) / 180.0) = b * (PI / 180.0) - a * (PI / 180.0) := by ring
  rw [hsub, div_mul_cancel₀ _ hne]

/-- The isometric latitude is strictly increasing on the latitudes `(-90, 90]`. -/
theorem isometricLatitude_lt (a b : ℝ) (hab : a < b) (ha : -90 < a) (hb : b ≤ 90) :
    isometricLatitude a < isometricLatitude b := by
  obtain ⟨ξ, hξ1, hξ2, hslope⟩ := isometricLatitude_slope a b hab ha hb
  have hmem := rad_mem_of_between a b ξ ha hb hξ1.le hξ2.le
  have hg := isometricLatitudeDeriv_pos ξ hmem.1 hmem.2
  have hP : (0 : ℝ) < PI / 180.0 := by have := PI_bounds.1; positivity
  have : 0 < isometricLatitudeDeriv ξ * ((b - a) * (PI / 180.0)) :=
    mul_pos (by linarith) (mul_pos (by linarith) hP)
  linarith

/-! ## Geodetic helpers: the distance block -/

/-- The sign of the projected northing is the sign of the latitude difference. -/
theorem sign_northing (lat lat0 : ℝ) (h1 : -90 < lat) (h2 : lat ≤ 90)
    (h3 : -90 < lat0) (h4 : lat0 ≤ 90) :
    SignType.sign (6378137.0 * 0.9996 * isometricLatitude lat -
      6378137.0 * 0.9996 * isometricLatitude lat0) = SignType.sign (lat - lat0) := by
  have hz : (0 : ℝ) < 6378137.0 * 0.9996 := by norm_num
  rcases lt_trichotomy lat lat0 with h | h | h
  · have := isometricLatitude_lt lat lat0 h h1 h4
    rw [sign_neg (by nlinarith), sign_neg (by linarith)]
  · subst h
    simp
  · have := isometricLatitude_lt lat0 lat h h3 h2
    rw [sign_pos (by nlinarith), sign_pos (by linarith)]

/-- The cosine of the azimuth `atan2(east, north)` has the sign of the northing, when the
northing is not zero. -/
theorem sign_cos_atan2 (east north : ℝ) (h : north ≠ 0) :
    SignType.sign (Real.cos (realLibm.atan2 east north)) = SignType.sign north := by
  have hne : (⟨north, east⟩ : ℂ) ≠ 0 := by
    intro h0
    exact h (congrArg Complex.re h0)
  rw [realLibm_apply.2.2.1, Complex.cos_arg hne]
  have habs : 0 < Complex.abs ⟨north, east⟩ := Complex.abs.pos hne
  rcases lt_or_gt_of_ne h with hn | hn
  · rw [sign_neg (div_neg_of_neg_of_pos hn habs), sign_neg hn]
  · rw [sign_pos (div_pos hn habs), sign_pos hn]

/-- The latitude guard in exact arithmetic: the guard adds `1e-9` to `lat0` when the
latitudes are less than `1e-9` apart (in particular when they are equal) and leaves
`lat0` alone otherwise, and the exact difference `lat1 - mlat0` is not zero. (In the
rounded code `lat0 + 1e-9` can be the `double` `lat1` itself.) -/
theorem mlat0_cases (lat0 lat1 : ℝ) :
    lat1 - calDistanceStatic.mlat0 lat0 lat1 ≠ 0 ∧
    (|lat1 - lat0| < 1e-9 → calDistanceStatic.mlat0 lat0 lat1 = lat0 + 1e-9) ∧
    (1e-9 ≤ |lat1 - lat0| → calDistanceStatic.mlat0 lat0 lat1 = lat0) ∧
    (lat1 = lat0 → calDistanceStatic.mlat0 lat0 lat1 = lat0 + 1e-9) := by
  unfold calDistanceStatic.mlat0
  refine ⟨?_, fun h => if_pos h, fun h => if_neg (not_lt.2 h), ?_⟩
  · split_ifs with h
    · have := (abs_lt.1 h).2
      linarith
    · intro h0
      apply h
      have : lat1 - lat0 = 0 := h0
      rw [this]
      norm_num
  · intro h
    rw [if_pos]
    rw [h, sub_self, abs_zero]
    norm_num

/-- What the distance block computes in exact arithmetic, for latitudes `lat1` and
`mlat0` in `(-90, 90]`: the azimuth is defined, its cosine is not zero and has the sign
of the latitude difference, and the Mercator sailing branch produces `dlat / cos(C)`, a
positive value. -/
theorem dist_mercator_branch (lat0 lon0 lat1 lon1 : ℝ) (h1 : -90 < lat1) (h2 : lat1 ≤ 90)
    (h3 : -90 < calDistanceStatic.mlat0 lat0 lat1)
    (h4 : calDistanceStatic.mlat0 lat0 lat1 ≤ 90) :
    ∃ east north C,
      toSM_ECC realLibm lat1 (calDistanceStatic.lonx lon0 lon1).2
        (calDistanceStatic.mlat0 lat0 lat1) (calDistanceStatic.lonx lon0 lon1).1 =
          some (east, Extended.fin north) ∧
      east = ((calDistanceStatic.lonx lon0 lon1).2 - (calDistanceStatic.lonx lon0 lon1).1) *
        (PI / 180.0) * (6378137.0 * 0.9996) ∧
      north = 6378137.0 * 0.9996 * isometricLatitude lat1 -
        6378137.0 * 0.9996 * isometricLatitude (calDistanceStatic.mlat0 lat0 lat1) ∧
      C = realLibm.atan2 east north ∧
      calDistanceStatic.distAzimuth realLibm lat0 lon0 lat1 lon1 = some C ∧
      SignType.sign north = SignType.sign (lat1 - calDistanceStatic.mlat0 lat0 lat1) ∧
      SignType.sign (Real.cos C) = SignType.sign north ∧
      Real.cos C ≠ 0 ∧
      calDistanceStatic.dist realLibm lat0 lon0 lat1 lon1 =
        some ((lat1 - calDistanceStatic.mlat0 lat0 lat1) * 60 / Real.cos C) ∧
      0 < (lat1 - calDistanceStatic.mlat0 lat0 lat1) * 60 / Real.cos C := by
  have hproj := toSM_ECC_real_of_mem lat1 (calDistanceStatic.lonx lon0 lon1).2
    (calDistanceStatic.mlat0 lat0 lat1) (calDistanceStatic.lonx lon0 lon1).1 h1 h2 h3 h4
  have hsn := sign_northing lat1 (calDistanceStatic.mlat0 lat0 lat1) h1 h2 h3 h4
  have hd := (mlat0_cases lat0 lat1).1
  have hnorth : 6378137.0 * 0.9996 * isometricLatitude lat1 -
      6378137.0 * 0.9996 * isometricLatitude (calDistanceStatic.mlat0 lat0 lat1) ≠ 0 := by
    intro h0
    rw [h0, sign_zero] at hsn
    exact hd (sign_eq_zero_iff.1 hsn.symm)
  have hsc := sign_cos_atan2 (((calDistanceStatic.lonx lon0 lon1).2 -
    (calDistanceStatic.lonx lon0 lon1).1) * (PI / 180.0) * (6378137.0 * 0.9996)) _ hnorth
  have hcos : Real.cos (realLibm.atan2 (((calDistanceStatic.lonx lon0 lon1).2 -
      (calDistanceStatic.lonx lon0 lon1).1) * (PI / 180.0) * (6378137.0 * 0.9996))
      (6378137.0 * 0.9996 * isometricLatitude lat1 -
        6378137.0 * 0.9996 * isometricLatitude (calDistanceStatic.mlat0 lat0 lat1))) ≠ 0 := by
    intro h0
    rw [h0, sign_zero] at hsc
    exact hnorth (sign_eq_zero_iff.1 hsc.symm)
  have haz : calDistanceStatic.distAzimuth realLibm lat0 lon0 lat1 lon1 =
      some (realLibm.atan2 (((calDistanceStatic.lonx lon0 lon1).2 -
        (calDistanceStatic.lonx lon0 lon1).1) * (PI / 180.0) * (6378137.0 * 0.9996))
        (6378137.0 * 0.9996 * isometricLatitude lat1 -
          6378137.0 * 0.9996 * isometricLatitude (calDistanceStatic.mlat0 lat0 lat1))) := by
    simp only [calDistanceStatic.distAzimuth, hproj, Option.bind_eq_bind, Option.some_bind,
      Option.pure_def, Libm.atan2e]
  refine ⟨_, _, _, hproj, rfl, rfl, rfl, haz, hsn, hsc, hcos, ?_, ?_⟩
  · simp only [calDistanceStatic.dist, haz, Option.bind_eq_bind, Option.some_bind,
      realLibm_apply.1, ne_eq, hcos, not_false_eq_true, if_true, Option.pure_def]
  · rw [hsn] at hsc
    rcases lt_or_gt_of_ne hd with hneg | hpos
    · rw [sign_neg hneg] at hsc
      exact div_pos_of_neg_of_neg (by linarith) (sign_eq_neg_one_iff.1 hsc)
    · rw [sign_pos hpos] at hsc
      exact div_pos (by linarith) (sign_eq_one_iff.1 hsc)

/-! ## Geodetic helpers: the bearing block -/

theorem brgOfAzimuth_range (C : ℝ) (h1 : -Real.pi ≤ C) (h2 : C ≤ Real.pi) :
    0 ≤ calDistanceStatic.brgOfAzimuth C ∧ calDistanceStatic.brgOfAzimuth C < 360 := by
  have hpi := Real.pi_lt_d2
  have hP : (3.14 : ℝ) < PI := by unfold PI; norm_num
  have hP0 : (0 : ℝ) < PI := by linarith
  have hq : C * 180 / PI * PI = C * 180 := by field_simp
  have hlo : -181 < C * 180 / PI := by
    by_contra hcon
    push_neg at hcon
    nlinarith
  have hhi : C * 180 / PI < 181 := by
    by_contra hcon
    push_neg at hcon
    nlinarith
  unfold calDistanceStatic.brgOfAzimuth
  simp only
  split_ifs with ha hb
  · constructor <;> linarith
  · constructor <;> linarith
  · push_neg at ha hb
    exact ⟨ha, hb⟩

theorem brg_eq_some_iff (lat0 lon0 lat1 lon1 b : ℝ) :
    calDistanceStatic.brg realLibm lat0 lon0 lat1 lon1 = some b ↔
      ∃ en, toSM_ECC realLibm lat1 (calDistanceStatic.lonx lon0 lon1).2 lat0
        (calDistanceStatic.lonx lon0 lon1).1 = some en ∧
        b = calDistanceStatic.brgOfAzimuth (realLibm.atan2e en.1 en.2) := by
  simp only [calDistanceStatic.brg, Option.bind_eq_bind, Option.bind_eq_some, Option.pure_def,
    Option.some.injEq]
  constructor
  · rintro ⟨en, h1, h2⟩
    exact ⟨en, h1, h2.symm⟩
  · rintro ⟨en, h1, h2⟩
    exact ⟨en, h1, h2.symm⟩

/-- When the projected vector is zero the bearing block stores `180`. -/
theorem brg_of_zero_vector (lat lon0 lon1 : ℝ) (h1 : -90 < lat) (h2 : lat ≤ 90)
    (hlon : (calDistanceStatic.lonx lon0 lon1).2 = (calDistanceStatic.lonx lon0 lon1).1) :
    calDistanceStatic.brg realLibm lat lon0 lat lon1 = some 180 := by
  rw [brg_eq_some_iff]
  refine ⟨_, toSM_ECC_real_of_mem lat _ lat _ h1 h2 h1 h2, ?_⟩
  have hzero : (⟨0, 0⟩ : ℂ) = 0 := rfl
  simp only [hlon, sub_self, zero_mul, Libm.atan2e, realLibm_apply.2.2.1, hzero,
    Complex.arg_zero]
  unfold calDistanceStatic.brgOfAzimuth
  norm_num

/-- The azimuth handed to the bearing block lies in `[-pi, pi]`. -/
theorem atan2e_range (y : ℝ) (x : Extended ℝ) :
    -Real.pi ≤ realLibm.atan2e y x ∧ realLibm.atan2e y x ≤ Real.pi := by
  have hpi := Real.pi_pos
  have hm : realLibm.atan2 0 (-1) = Real.pi := by
    rw [realLibm_apply.2.2.1]
    have h : (⟨-1, 0⟩ : ℂ) = ((-1 : ℝ) : ℂ) := rfl
    rw [h]
    exact Complex.arg_ofReal_of_neg (by norm_num)
  cases x with
  | fin x =>
    simp only [Libm.atan2e, realLibm_apply.2.2.1]
    exact ⟨(Complex.neg_pi_lt_arg _).le, Complex.arg_le_pi _⟩
  | posInf =>
    simp only [Libm.atan2e]
    constructor <;> linarith
  | negInf =>
    simp only [Libm.atan2e, hm]
    split_ifs
    · constructor <;> linarith
    · constructor <;> linarith

/-- With the origin at the latitude `-90` and the other fix in `(-90, 90]` the northing
is plus infinity, the azimuth is `0` and the bearing block stores `180`. -/
theorem brg_from_south_pole (lat lon0 lon1 : ℝ) (h1 : -90 < lat) (h2 : lat ≤ 90) :
    calDistanceStatic.brg realLibm (-90) lon0 lat lon1 = some 180 := by
  rw [brg_eq_some_iff]
  refine ⟨_, (toSM_ECC_real_south_pole lat _ _).1 h1 h2, ?_⟩
  simp only [Libm.atan2e]
  unfold calDistanceStatic.brgOfAzimuth
  norm_num

/-- C5, as amended. The bearing stored by `calDistanceStatic` lies in `[0, 360)` whenever
it is a number: for every azimuth `C` in `[-pi, pi]` the value `180 + C*180/PI`, after
the normalisation step, is in `[0, 360)`; hence every bearing that the bearing block
produces, for whatever pair of fixes, is in `[0, 360)`; and the block does produce a
bearing for every pair of fixes with latitudes in `[-90, 90]` that are not both `-90`. -/
theorem calDistanceStatic_brg_range :
    (∀ C : ℝ, -Real.pi ≤ C → C ≤ Real.pi →
      0 ≤ calDistanceStatic.brgOfAzimuth C ∧ calDistanceStatic.brgOfAzimuth C < 360) ∧
    (∀ lat0 lon0 lat1 lon1 b : ℝ,
      calDistanceStatic.brg realLibm lat0 lon0 lat1 lon1 = some b → 0 ≤ b ∧ b < 360) ∧
    (∀ lat0 lon0 lat1 lon1 : ℝ, -90 ≤ lat0 → lat0 ≤ 90 → -90 ≤ lat1 → lat1 ≤ 90 →
      ¬ (lat0 = -90 ∧ lat1 = -90) →
      ∃ b, calDistanceStatic.brg realLibm lat0 lon0 lat1 lon1 = some b ∧
        0 ≤ b ∧ b < 360) := by
  have hrange : ∀ lat0 lon0 lat1 lon1 b : ℝ,
      calDistanceStatic.brg realLibm lat0 lon0 lat1 lon1 = some b → 0 ≤ b ∧ b < 360 := by
    intro lat0 lon0 lat1 lon1 b hb
    obtain ⟨en, -, rfl⟩ := (brg_eq_some_iff lat0 lon0 lat1 lon1 b).1 hb
    exact brgOfAzimuth_range _ (atan2e_range _ _).1 (atan2e_range _ _).2
  refine ⟨brgOfAzimuth_range, hrange, ?_⟩
  intro lat0 lon0 lat1 lon1 h1 h2 h3 h4 hne
  have hex : ∃ en, toSM_ECC realLibm lat1 (calDistanceStatic.lonx lon0 lon1).2 lat0
      (calDistanceStatic.lonx lon0 lon1).1 = some en := by
    rcases eq_or_lt_of_le h1 with e0 | l0
    · rcases eq_or_lt_of_le h3 with e1 | l1
      · exact absurd ⟨e0.symm, e1.symm⟩ hne
      · rw [← e0]
        exact ⟨_, (toSM_ECC_real_south_pole lat1 _ _).1 l1 h4⟩
    · rcases eq_or_lt_of_le h3 with e1 | l1
      · rw [← e1]
        exact ⟨_, (toSM_ECC_real_south_pole lat0 _ _).2.1 l0 h2⟩
      · exact ⟨_, toSM_ECC_real_of_mem lat1 _ lat0 _ l1 h4 l0 h2⟩
  obtain ⟨en, hen⟩ := hex
  have hb := (brg_eq_some_iff lat0 lon0 lat1 lon1 _).2 ⟨en, hen, rfl⟩
  exact ⟨_, hb, hrange _ _ _ _ _ hb⟩

/-- C5 (amended) at the azimuth `C = 0` and at the fixes `(-90, 0)`, `(10, 0)`. -/
theorem calDistanceStatic_brg_range_witness :
    (-Real.pi ≤ (0 : ℝ) ∧ (0 : ℝ) ≤ Real.pi ∧
      0 ≤ calDistanceStatic.brgOfAzimuth (0 : ℝ) ∧
      calDistanceStatic.brgOfAzimuth (0 : ℝ) < 360) ∧
    ((-90 : ℝ) ≤ -90 ∧ (-90 : ℝ) ≤ 90 ∧ (-90 : ℝ) ≤ 10 ∧ (10 : ℝ) ≤ 90 ∧
      ¬ ((-90 : ℝ) = -90 ∧ (10 : ℝ) = -90) ∧
      ∃ b, calDistanceStatic.brg realLibm (-90) 0 10 0 = some b ∧ 0 ≤ b ∧ b < 360) :=
  ⟨⟨by linarith [Real.pi_pos], Real.pi_pos.le,
    calDistanceStatic_brg_range.1 0 (by linarith [Real.pi_pos]) Real.pi_pos.le⟩,
   ⟨by norm_num, by norm_num, by norm_num, by norm_num, by norm_num,
    calDistanceStatic_brg_range.2.2 (-90) 0 10 0 (by norm_num) (by norm_num)
      (by norm_num) (by norm_num) (by norm_num)⟩⟩

/-- C5, counterexample. For the pair of fixes `(-90, 0)`, `(-90, 0)` the projection
subtracts minus infinity from minus infinity, the azimuth is not a number, and the
bearing block stores no value of `[0, 360)`. -/
theorem calDistanceStatic_brg_south_pole :
    calDistanceStatic.brg realLibm (-90) 0 (-90) 0 = none ∧
    ¬ ∃ b, calDistanceStatic.brg realLibm (-90) 0 (-90) 0 = some b ∧ 0 ≤ b ∧ b < 360 := by
  have hnone : calDistanceStatic.brg realLibm (-90) 0 (-90) 0 = none := by
    simp only [calDistanceStatic.brg, (toSM_ECC_real_south_pole 0 _ _).2.2,
      Option.bind_eq_bind, Option.none_bind]
  refine ⟨hnone, ?_⟩
  rintro ⟨b, hb, -⟩
  rw [hnone] at hb
  cases hb

/-! ## Geodetic helpers: the distance for equal working longitudes -/

/-- With both working longitudes equal the azimuth is `0` or `pi` and, in exact
arithmetic, the distance block stores the absolute latitude difference in arc-minutes. -/
theorem dist_of_equal_longitudes (lat0 lon0 lat1 lon1 : ℝ) (h1 : -90 < lat1)
    (h2 : lat1 ≤ 90) (h3 : -90 < calDistanceStatic.mlat0 lat0 lat1)
    (h4 : calDistanceStatic.mlat0 lat0 lat1 ≤ 90)
    (hlon : (calDistanceStatic.lonx lon0 lon1).2 = (calDistanceStatic.lonx lon0 lon1).1) :
    calDistanceStatic.dist realLibm lat0 lon0 lat1 lon1 =
      some (|lat1 - calDistanceStatic.mlat0 lat0 lat1| * 60) := by
  obtain ⟨east, north, C, -, heast, -, hC, -, hsn, -, hcos, hdist, -⟩ :=
    dist_mercator_branch lat0 lon0 lat1 lon1 h1 h2 h3 h4
  have he0 : east = 0 := by rw [heast, hlon]; simp
  rw [hdist]
  congr 1
  have hreal : (⟨north, 0⟩ : ℂ) = (north : ℂ) := rfl
  rcases lt_trichotomy (lat1 - calDistanceStatic.mlat0 lat0 lat1) 0 with hd | hd | hd
  · rw [sign_neg hd] at hsn
    have hn : north < 0 := sign_eq_neg_one_iff.1 hsn
    rw [hC, he0, realLibm_apply.2.2.1, hreal, Complex.arg_ofReal_of_neg hn, Real.cos_pi,
      abs_of_neg hd]
    ring
  · exact absurd hd ((mlat0_cases lat0 lat1).1)
  · rw [sign_pos hd] at hsn
    have hn : 0 < north := sign_eq_one_iff.1 hsn
    rw [hC, he0, realLibm_apply.2.2.1, hreal, Complex.arg_ofReal_of_nonneg hn.le, Real.cos_zero,
      abs_of_pos hd]
    ring

theorem lonx_values :
    (∀ lon : ℝ, calDistanceStatic.lonx lon lon = (lon, lon)) ∧
    calDistanceStatic.lonx (-180 : ℝ) 180 = (540, 540) := by
  constructor
  · intro lon
    unfold calDistanceStatic.lonx
    rw [if_neg (not_lt.2 (mul_self_nonneg lon))]
  · unfold calDistanceStatic.lonx
    norm_num

/-- Beyond the north pole the tangent taken by `toSM_ECC` for the reference latitude is
negative, its logarithm is not a number, and the projection produces nothing. -/
theorem toSM_ECC_beyond_pole (lat lon lon0 : ℝ) :
    toSM_ECC realLibm lat lon 90.0000000005 lon0 = none := by
  obtain ⟨hP, hP4, hlt, hgap⟩ := PI_bounds
  have htan : Real.tan (PI / 4 + (90.0000000005 : ℝ) * (PI / 180.0) / 2) < 0 := by
    rw [← Real.tan_sub_pi]
    apply Real.tan_neg_of_neg_of_pi_div_two_lt
    · have : (PI : ℝ) / 4 + 90.0000000005 * (PI / 180.0) / 2 < PI := by
        norm_num
        linarith
      linarith
    · have : (PI : ℝ) / 2 + PI * (1 / 10 ^ 12) <
          (PI : ℝ) / 4 + 90.0000000005 * (PI / 180.0) / 2 := by
        norm_num
        linarith
      have h16 : (2 : ℝ) / 10 ^ 16 < 3 * (1 / 10 ^ 12) := by norm_num
      nlinarith
  have e_eq : realLibm.sqrt (2 * (1.0 / 298.257223563) -
      (1.0 / 298.257223563) * (1.0 / 298.257223563)) = eccentricity := rfl
  have sin_eq : ∀ x, realLibm.sin x = Real.sin x := fun _ => rfl
  have tan_eq : ∀ x, realLibm.tan x = Real.tan x := fun _ => rfl
  have hpow : 0 < ((1 - eccentricity * Real.sin ((90.0000000005 : ℝ) * (PI / 180.0))) /
      (1 + eccentricity * Real.sin ((90.0000000005 : ℝ) * (PI / 180.0)))) ^
        (eccentricity / 2) :=
    Real.rpow_pos_of_pos (div_pos (ecc_sin_pos _).1 (ecc_sin_pos _).2) _
  simp only [toSM_ECC, e_eq, sin_eq, tan_eq]
  rw [fdiv_of_ne _ _ (ne_of_gt (ecc_sin_pos ((90.0000000005 : ℝ) * (PI / 180.0))).2)]
  simp only [Option.bind_eq_bind, Option.some_bind]
  rw [realLibm_apply.2.2.2.2.2 _ _ (div_pos (ecc_sin_pos _).1 (ecc_sin_pos _).2)]
  simp only [Option.some_bind]
  rw [realLibm_apply.2.2.2.2.1 _ (mul_neg_of_neg_of_pos htan hpow)]
  rfl

/-- C9, as amended. Identical fixes give (almost) zero distance: for every fix `F` with
latitude in `(-90, 90 - 1e-9]` the distance block of `calDistanceStatic(F, F)` stores a
positive distance of at most `6.1e-8` nautical miles (`6e-8` before rounding, about
`0.00011` metres), and once that fix is the captured origin, `ToOdometryData` called with
the same fix returns a pose whose `(x, y)` offset has norm below one millimetre. -/
theorem calDistanceStatic_same_fix (lat lon : ℝ) (h1 : -90 < lat)
    (h2 : lat + 1e-9 ≤ 90) :
    (∃ d, calDistanceStatic.dist realLibm lat lon lat lon = some d ∧ 0 < d ∧
      |d| ≤ 6.1e-8) ∧
    ∀ st : SensorBridge ℝ, st.first_tag_gps_ = false → st.first_lat_ = lat →
      st.first_lon_ = lon →
      ∃ x y, (ToOdometryData realLibm st lat lon).2 = some (x, y) ∧
        Real.sqrt (x ^ 2 + y ^ 2) < 1e-3 := by
  have hm := (mlat0_cases lat lat).2.2.2 rfl
  have hle : lat ≤ 90 := by norm_num at h2 ⊢; linarith
  have hd : calDistanceStatic.dist realLibm lat lon lat lon = some 6e-8 := by
    rw [dist_of_equal_longitudes lat lon lat lon h1 hle (by rw [hm]; linarith)
      (by rw [hm]; exact h2) (by rw [lonx_values.1]), hm]
    congr 1
    rw [abs_of_neg (by norm_num)]
    norm_num
  have hb := brg_of_zero_vector lat lon lon h1 hle (by rw [lonx_values.1])
  refine ⟨⟨_, hd, by norm_num, ?_⟩, ?_⟩
  · rw [abs_of_pos (by norm_num)]
    norm_num
  · intro st htag hlat hlon
    have hpose : (ToOdometryData realLibm st lat lon).2 =
        some (6e-8 * 1852 * realLibm.sin (180 * M_PI / 180.0 + M_PI / 2),
          6e-8 * 1852 * realLibm.cos (180 * M_PI / 180.0 + M_PI / 2)) := by
      simp only [ToOdometryData, htag, hlat, hlon, calDistanceStatic, hd, hb,
        Bool.false_eq_true, if_false, Option.bind_eq_bind, Option.some_bind,
        Option.pure_def]
    refine ⟨_, _, hpose, ?_⟩
    have hsq : (6e-8 * 1852 * realLibm.sin (180 * M_PI / 180.0 + M_PI / 2)) ^ 2 +
        (6e-8 * 1852 * realLibm.cos (180 * M_PI / 180.0 + M_PI / 2)) ^ 2 =
        ((6e-8 : ℝ) * 1852) ^ 2 := by
      rw [realLibm_apply.2.1, realLibm_apply.1]
      have := Real.sin_sq_add_cos_sq ((180 : ℝ) * M_PI / 180.0 + M_PI / 2)
      linear_combination ((6e-8 : ℝ) * 1852) ^ 2 * this
    rw [hsq, Real.sqrt_sq (by norm_num)]
    norm_num

/-- C9 (amended) at the fix `(10, 20)`, with a tracker whose captured origin is that
fix. -/
theorem calDistanceStatic_same_fix_witness :
    (-90 : ℝ) < 10 ∧ (10 : ℝ) + 1e-9 ≤ 90 ∧
    (∃ d, calDistanceStatic.dist realLibm 10 20 10 20 = some d ∧ 0 < d ∧
      |d| ≤ 6.1e-8) ∧
    ∃ x y, (ToOdometryData realLibm ⟨false, 10, 20, 10, 20⟩ 10 20).2 = some (x, y) ∧
      Real.sqrt (x ^ 2 + y ^ 2) < 1e-3 :=
  ⟨by norm_num, by norm_num,
    (calDistanceStatic_same_fix 10 20 (by norm_num) (by norm_num)).1,
    (calDistanceStatic_same_fix 10 20 (by norm_num) (by norm_num)).2
      ⟨false, 10, 20, 10, 20⟩ rfl rfl rfl⟩

/-- C9, counterexample. For the fix `(89.9999999995, 0)`, whose latitude is inside
`(-90, 90)`, the guard moves the reference latitude to `90.0000000005`; there the
projection takes the logarithm of a negative number, so the distance block produces no
number at all, in particular none of magnitude at most `6e-8`. -/
theorem calDistanceStatic_same_fix_near_pole :
    ((-90 : ℝ) < 89.9999999995 ∧ (89.9999999995 : ℝ) < 90) ∧
    calDistanceStatic.dist realLibm 89.9999999995 0 89.9999999995 0 = none ∧
    ¬ ∃ d, calDistanceStatic.dist realLibm 89.9999999995 0 89.9999999995 0 = some d ∧
      |d| ≤ 6e-8 := by
  have hm : calDistanceStatic.mlat0 (89.9999999995 : ℝ) 89.9999999995 = 90.0000000005 := by
    rw [(mlat0_cases (89.9999999995 : ℝ) 89.9999999995).2.2.2 rfl]; norm_num
  have hnone : calDistanceStatic.dist realLibm 89.9999999995 0 89.9999999995 0 = none := by
    simp only [calDistanceStatic.dist, calDistanceStatic.distAzimuth, hm,
      toSM_ECC_beyond_pole, Option.bind_eq_bind, Option.none_bind]
  refine ⟨⟨by norm_num, by norm_num⟩, hnone, ?_⟩
  rintro ⟨d, hd, -⟩
  rw [hnone] at hd
  cases hd

/-- C7, as amended. For an exact east or west course, i.e. for every pair of fixes with
equal latitude `lat` in `(-90, 90 - 1e-9]`, whatever the two longitudes, the latitude
guard replaces the reference latitude by `mlat0 = lat + 1e-9`: the azimuth `C` of the
distance block is defined, `cos(C)` is not zero, so no division by zero occurs, and the
block stores the Mercator sailing value `dlat / cos(C)` with `dlat = (lat - mlat0) * 60`;
the great-circle fallback is not the branch that produces the result. For longitudes in
`[-180, 180]` the stored value is positive. -/
theorem calDistanceStatic_east_west_course (lat lon0 lon1 : ℝ) (h1 : -90 < lat)
    (h2 : lat + 1e-9 ≤ 90) :
    ∃ C, calDistanceStatic.distAzimuth realLibm lat lon0 lat lon1 = some C ∧
      realLibm.cos C ≠ 0 ∧
      calDistanceStatic.dist realLibm lat lon0 lat lon1 =
        some ((lat - calDistanceStatic.mlat0 lat lat) * 60 / realLibm.cos C) ∧
      (-180 ≤ lon0 ∧ lon0 ≤ 180 → -180 ≤ lon1 ∧ lon1 ≤ 180 →
        0 < (lat - calDistanceStatic.mlat0 lat lat) * 60 / realLibm.cos C) := by
  have hm := (mlat0_cases lat lat).2.2.2 rfl
  obtain ⟨east, north, C, -, -, -, -, haz, -, -, hcos, hdist, hpos⟩ :=
    dist_mercator_branch lat lon0 lat lon1 h1 (by norm_num at h2 ⊢; linarith)
      (by rw [hm]; norm_num at h2 ⊢; linarith) (by rw [hm]; exact h2)
  exact ⟨C, haz, hcos, hdist, fun _ _ => hpos⟩

/-- C7 (amended) at the course from `(10, 20)` to `(10, 21)`. -/
theorem calDistanceStatic_east_west_course_witness :
    (-90 : ℝ) < 10 ∧ (10 : ℝ) + 1e-9 ≤ 90 ∧
    ((-180 : ℝ) ≤ 20 ∧ (20 : ℝ) ≤ 180) ∧ ((-180 : ℝ) ≤ 21 ∧ (21 : ℝ) ≤ 180) ∧
    ∃ C, calDistanceStatic.distAzimuth realLibm 10 20 10 21 = some C ∧
      realLibm.cos C ≠ 0 ∧
      calDistanceStatic.dist realLibm 10 20 10 21 =
        some (((10 : ℝ) - calDistanceStatic.mlat0 10 10) * 60 / realLibm.cos C) ∧
      0 < ((10 : ℝ) - calDistanceStatic.mlat0 10 10) * 60 / realLibm.cos C := by
  obtain ⟨C, haz, hcos, hdist, hpos⟩ :=
    calDistanceStatic_east_west_course 10 20 21 (by norm_num) (by norm_num)
  exact ⟨by norm_num, by norm_num, ⟨by norm_num, by norm_num⟩, ⟨by norm_num, by norm_num⟩,
    C, haz, hcos, hdist, hpos ⟨by norm_num, by norm_num⟩ ⟨by norm_num, by norm_num⟩⟩

/-- At the pair `(0, -180)`, `(0, 180)` the longitude difference reduces to less than
`DTOL`, and the great-circle fallback returns `0`. -/
theorem DistGreatCircle_antimeridian : DistGreatCircle realLibm 0 (-180) 0 180 = some 0 := by
  have hadj : |adjlon realLibm ((180 : ℝ) * (PI / 180.0) - -180 * (PI / 180.0))| <
      1e-12 := by
    have hfloor : ⌊((180 : ℝ) * (PI / 180.0) - -180 * (PI / 180.0) +
        3.14159265358979323846) / 6.2831853071795864769⌋ = 1 := by
      rw [Int.floor_eq_iff]
      unfold PI
      constructor <;> norm_num
    have hbig : ¬ |(180 : ℝ) * (PI / 180.0) - -180 * (PI / 180.0)| ≤ 3.14159265359 := by
      unfold PI
      rw [abs_of_pos (by norm_num)]
      norm_num
    have hfl : ∀ x : ℝ, realLibm.floor x = (⌊x⌋ : ℝ) := fun _ => rfl
    unfold adjlon
    simp only [hbig, if_false, hfl, hfloor]
    unfold PI
    rw [abs_lt]
    constructor <;> norm_num
  have hth : realLibm.atan (realLibm.sqrt (1 - (2 * (1.0 / 298.257223563) -
      1.0 / 298.257223563 * (1.0 / 298.257223563))) *
      realLibm.tan (0 * (PI / 180.0))) = 0 := by
    show Real.arctan (_ * Real.tan (0 * (PI / 180.0))) = 0
    rw [zero_mul, Real.tan_zero, mul_zero, Real.arctan_zero]
  unfold DistGreatCircle
  simp only [hth]
  rw [if_pos]
  · norm_num
  · refine ⟨hadj, ?_⟩
    norm_num

/-- C7, counterexample. On the east course from `(0, 0)` to `(0, 1)` the azimuth of the
distance block has a non-zero cosine, so the Mercator sailing branch, not the
great-circle fallback, produces the result; and for the pair `(0, -180)`, `(0, 180)`
(equal latitude, different longitude) the distance block stores `6e-8` while
`DistGreatCircle` on the same two fixes returns `0`. -/
theorem calDistanceStatic_east_west_not_fallback :
    (∃ C, calDistanceStatic.distAzimuth realLibm 0 0 0 1 = some C ∧
      realLibm.cos C ≠ 0 ∧
      calDistanceStatic.dist realLibm 0 0 0 1 =
        some (((0 : ℝ) - calDistanceStatic.mlat0 0 0) * 60 / realLibm.cos C)) ∧
    calDistanceStatic.dist realLibm 0 (-180) 0 180 = some 6e-8 ∧
    DistGreatCircle realLibm 0 (-180) 0 180 = some 0 ∧
    calDistanceStatic.dist realLibm 0 (-180) 0 180 ≠
      DistGreatCircle realLibm 0 (-180) 0 180 := by
  have hm : calDistanceStatic.mlat0 (0 : ℝ) 0 = 0 + 1e-9 := (mlat0_cases 0 0).2.2.2 rfl
  have h3 : -90 < calDistanceStatic.mlat0 (0 : ℝ) 0 := by rw [hm]; norm_num
  have h4 : calDistanceStatic.mlat0 (0 : ℝ) 0 ≤ 90 := by rw [hm]; norm_num
  obtain ⟨east, north, C, -, -, -, -, haz, -, -, hcos, hdist, -⟩ :=
    dist_mercator_branch 0 0 0 1 (by norm_num) (by norm_num) h3 h4
  have hd : calDistanceStatic.dist realLibm 0 (-180) 0 180 = some 6e-8 := by
    rw [dist_of_equal_longitudes 0 (-180) 0 180 (by norm_num) (by norm_num) h3 h4
      (by rw [lonx_values.2]), hm]
    congr 1
    rw [abs_of_neg (by norm_num)]
    norm_num
  refine ⟨⟨C, haz, hcos, hdist⟩, hd, DistGreatCircle_antimeridian, ?_⟩
  rw [hd, DistGreatCircle_antimeridian]
  intro h
  have := Option.some.inj h
  norm_num at this

/-! ## Reversal of a pair of fixes: the working longitudes -/

/-- Swapping the two longitudes swaps the two working longitudes. -/
theorem lonx_swap (lon0 lon1 : ℝ) :
    calDistanceStatic.lonx lon1 lon0 =
      ((calDistanceStatic.lonx lon0 lon1).2, (calDistanceStatic.lonx lon0 lon1).1) := by
  unfold calDistanceStatic.lonx
  rw [mul_comm lon1 lon0]
  by_cases hprod : lon0 * lon1 < 0
  · simp only [hprod, if_true]
    by_cases h0 : lon0 < 0
    · have h1 : ¬ lon1 < 0 := by
        intro h
        nlinarith [mul_pos_of_neg_of_neg h0 h]
      simp only [h0, h1, if_true, if_false]
      rw [abs_sub_comm lon1 (lon0 + 360)]
      by_cases hbig : |lon0 + 360 - lon1| > 180
      · simp only [hbig, if_true]
        by_cases hgt : lon0 + 360 > lon1
        · have hng : ¬ lon1 > lon0 + 360 := by linarith
          simp only [hgt, hng, if_true, if_false]
        · have hne : lon0 + 360 ≠ lon1 := by
            intro h
            rw [h, sub_self, abs_zero] at hbig
            linarith
          have hlt : lon1 > lon0 + 360 := lt_of_le_of_ne (not_lt.1 hgt) hne
          simp only [hgt, hlt, if_true, if_false]
      · simp only [hbig, if_false]
    · have h1 : lon1 < 0 := by
        by_contra h
        push_neg at h h0
        nlinarith [mul_nonneg h0 h]
      simp only [h0, h1, if_true, if_false]
      rw [abs_sub_comm (lon1 + 360) lon0]
      by_cases hbig : |lon0 - (lon1 + 360)| > 180
      · simp only [hbig, if_true]
        by_cases hgt : lon0 > lon1 + 360
        · have hng : ¬ lon1 + 360 > lon0 := by linarith
          simp only [hgt, hng, if_true, if_false]
        · have hne : lon0 ≠ lon1 + 360 := by
            intro h
            rw [h, sub_self, abs_zero] at hbig
            linarith
          have hlt : lon1 + 360 > lon0 := lt_of_le_of_ne (not_lt.1 hgt) hne
          simp only [hgt, hlt, if_true, if_false]
      · simp only [hbig, if_false]
  · simp only [hprod, if_false]

/-- For longitudes in `[-180, 180]` the working longitudes differ by the original
difference or by that difference shifted by a full turn, and by at most `180`. -/
theorem lonx_diff (lon0 lon1 : ℝ) (h0 : -180 ≤ lon0 ∧ lon0 ≤ 180)
    (h1 : -180 ≤ lon1 ∧ lon1 ≤ 180) :
    ((calDistanceStatic.lonx lon0 lon1).2 - (calDistanceStatic.lonx lon0 lon1).1 =
        lon1 - lon0 ∨
      (calDistanceStatic.lonx lon0 lon1).2 - (calDistanceStatic.lonx lon0 lon1).1 =
        lon1 - lon0 - 360 ∨
      (calDistanceStatic.lonx lon0 lon1).2 - (calDistanceStatic.lonx lon0 lon1).1 =
        lon1 - lon0 + 360) ∧
    |(calDistanceStatic.lonx lon0 lon1).2 - (calDistanceStatic.lonx lon0 lon1).1| ≤ 180 := by
  unfold calDistanceStatic.lonx
  by_cases hprod : lon0 * lon1 < 0
  · simp only [hprod, if_true]
    by_cases hneg : lon0 < 0
    · have hpos : 0 < lon1 := by
        by_contra h
        push_neg at h
        nlinarith [mul_nonneg_of_nonpos_of_nonpos hneg.le h]
      simp only [hneg, if_true]
      by_cases hbig : |lon0 + 360 - lon1| > 180
      · have hnn : 0 ≤ lon0 + 360 - lon1 := by linarith [h0.1, h1.2]
        rw [abs_of_nonneg hnn] at hbig
        have hgt : lon0 + 360 > lon1 := by linarith
        simp only [abs_of_nonneg hnn, hbig, hgt, if_true]
        refine ⟨Or.inl (by ring), ?_⟩
        rw [abs_le]
        constructor <;> linarith
      · have hnn : 0 ≤ lon0 + 360 - lon1 := by linarith [h0.1, h1.2]
        rw [abs_of_nonneg hnn] at hbig
        simp only [abs_of_nonneg hnn, hbig, if_false]
        refine ⟨Or.inr (Or.inl (by ring)), ?_⟩
        rw [abs_le]
        constructor <;> linarith [h0.1, h1.2]
    · have hpos : 0 < lon0 := by
        by_contra h
        push_neg at h hneg
        have : lon0 = 0 := le_antisymm h hneg
        rw [this, zero_mul] at hprod
        exact lt_irrefl _ hprod
      have hneg1 : lon1 < 0 := by
        by_contra h
        push_neg at h
        nlinarith [mul_nonneg hpos.le h]
      simp only [hneg, if_false]
      by_cases hbig : |lon0 - (lon1 + 360)| > 180
      · have hlt : lon0 - (lon1 + 360) < 0 := by
          by_contra hcon
          push_neg at hcon
          rw [abs_of_nonneg hcon] at hbig
          linarith [h0.2, h1.1]
        have hng : ¬ lon0 > lon1 + 360 := by linarith
        rw [abs_of_neg hlt] at hbig
        simp only [abs_of_neg hlt, hbig, hng, if_true, if_false]
        refine ⟨Or.inl (by ring), ?_⟩
        rw [abs_le]
        constructor <;> linarith
      · have hle : lon0 - (lon1 + 360) ≤ 0 := by linarith [h0.2, h1.1]
        rw [abs_of_nonpos hle] at hbig
        simp only [abs_of_nonpos hle, hbig, if_false]
        refine ⟨Or.inr (Or.inr (by ring)), ?_⟩
        rw [abs_le]
        constructor <;> linarith [h0.2, h1.1]
  · rw [if_neg hprod]
    refine ⟨Or.inl rfl, ?_⟩
    push_neg at hprod
    rw [abs_le]
    constructor
    · by_contra hcon
      push_neg at hcon
      have hn1 : lon1 < 0 := by linarith [h0.2]
      have hp0 : 0 < lon0 := by linarith [h1.1]
      nlinarith [mul_pos_of_neg_of_neg hn1 (by linarith : -lon0 < 0)]
    · by_contra hcon
      push_neg at hcon
      have hn0 : lon0 < 0 := by linarith [h1.2]
      have hp1 : 0 < lon1 := by linarith [h0.1]
      nlinarith [mul_pos_of_neg_of_neg hn0 (by linarith : -lon1 < 0)]

/-! ## Reversal of a pair of fixes: bearing -/

/-- Reversing a non-zero projected vector turns the bearing by `180` degrees modulo
`360`, up to the error of the constant `PI`. -/
theorem brgOfAzimuth_reverse (w : ℂ) (hw : w ≠ 0) :
    ∃ n : ℤ, |calDistanceStatic.brgOfAzimuth (Complex.arg (-w)) -
      (calDistanceStatic.brgOfAzimuth (Complex.arg w) + 180) - 360 * n| < 1e-9 := by
  have hform : ∀ C : ℝ, ∃ k : ℤ,
      calDistanceStatic.brgOfAzimuth C = 180 + C * 180 / PI + 360 * k := by
    intro C
    unfold calDistanceStatic.brgOfAzimuth
    simp only
    split_ifs
    · exact ⟨1, by push_cast; ring⟩
    · exact ⟨-1, by push_cast; ring⟩
    · exact ⟨0, by push_cast; ring⟩
  have hcases : Complex.arg (-w) = Complex.arg w - Real.pi ∨
      Complex.arg (-w) = Complex.arg w + Real.pi := by
    rcases lt_trichotomy w.im 0 with h | h | h
    · exact Or.inr (Complex.arg_neg_eq_arg_add_pi_iff.2 (Or.inl h))
    · rcases lt_trichotomy w.re 0 with hr | hr | hr
      · exact Or.inl (Complex.arg_neg_eq_arg_sub_pi_iff.2 (Or.inr ⟨h, hr⟩))
      · exact absurd (Complex.ext hr h) hw
      · exact Or.inr (Complex.arg_neg_eq_arg_add_pi_iff.2 (Or.inr ⟨h, hr⟩))
    · exact Or.inl (Complex.arg_neg_eq_arg_sub_pi_iff.2 (Or.inl h))
  obtain ⟨hP3, -, hlt, hgap⟩ := PI_bounds
  have herr : |180 * (Real.pi - (PI : ℝ)) / PI| < 1e-10 := by
    have hnum : 0 < 180 * (Real.pi - (PI : ℝ)) := by linarith
    rw [abs_of_pos (div_pos hnum (by linarith)), div_lt_iff₀ (by linarith)]
    have h16 : (180 : ℝ) * (2 / 10 ^ 16) < 1e-10 * 3 := by norm_num
    have h10 : (0 : ℝ) < 1e-10 := by norm_num
    nlinarith
  obtain ⟨k, hk⟩ := hform (Complex.arg w)
  obtain ⟨k', hk'⟩ := hform (Complex.arg (-w))
  have hP : (PI : ℝ) ≠ 0 := by linarith
  have h9 : (1e-10 : ℝ) < 1e-9 := by norm_num
  rcases hcases with h | h
  · refine ⟨k' - k - 1, ?_⟩
    have : calDistanceStatic.brgOfAzimuth (Complex.arg (-w)) -
        (calDistanceStatic.brgOfAzimuth (Complex.arg w) + 180) -
          360 * ((k' - k - 1 : ℤ) : ℝ) = -(180 * (Real.pi - (PI : ℝ)) / PI) := by
      rw [hk', hk, h]
      push_cast
      field_simp
      ring
    rw [this, abs_neg]
    linarith
  · refine ⟨k' - k, ?_⟩
    have : calDistanceStatic.brgOfAzimuth (Complex.arg (-w)) -
        (calDistanceStatic.brgOfAzimuth (Complex.arg w) + 180) -
          360 * ((k' - k : ℤ) : ℝ) = 180 * (Real.pi - (PI : ℝ)) / PI := by
      rw [hk', hk, h]
      push_cast
      field_simp
      ring
    rw [this]
    linarith

/-- The bearings of a pair of fixes and of the reversed pair, for latitudes in
`(-90, 90]` and a non-zero projected vector. -/
theorem brg_reverse (latA lonA latB lonB : ℝ) (hA1 : -90 < latA) (hA2 : latA ≤ 90)
    (hB1 : -90 < latB) (hB2 : latB ≤ 90)
    (hne : ¬ (latA = latB ∧
      (calDistanceStatic.lonx lonA lonB).2 = (calDistanceStatic.lonx lonA lonB).1)) :
    ∃ bAB bBA, calDistanceStatic.brg realLibm latA lonA latB lonB = some bAB ∧
      calDistanceStatic.brg realLibm latB lonB latA lonA = some bBA ∧
      ∃ n : ℤ, |bBA - (bAB + 180) - 360 * n| < 1e-9 := by
  have hAB := (brg_eq_some_iff latA lonA latB lonB _).2
    ⟨_, toSM_ECC_real_of_mem latB _ latA _ hB1 hB2 hA1 hA2, rfl⟩
  have hBA := (brg_eq_some_iff latB lonB latA lonA _).2
    ⟨_, toSM_ECC_real_of_mem latA _ latB _ hA1 hA2 hB1 hB2, rfl⟩
  refine ⟨_, _, hAB, hBA, ?_⟩
  have hD : (0 : ℝ) < PI / 180.0 := by have := PI_bounds.1; positivity
  have hz : (0 : ℝ) < 6378137.0 * 0.9996 := by norm_num
  have hw : (⟨6378137.0 * 0.9996 * isometricLatitude latB -
      6378137.0 * 0.9996 * isometricLatitude latA,
      ((calDistanceStatic.lonx lonA lonB).2 - (calDistanceStatic.lonx lonA lonB).1) *
        (PI / 180.0) * (6378137.0 * 0.9996)⟩ : ℂ) ≠ 0 := by
    intro h0
    apply hne
    have hre := congrArg Complex.re h0
    have him := congrArg Complex.im h0
    simp only [Complex.zero_re, Complex.zero_im] at hre him
    constructor
    · have hs := sign_northing latB latA hB1 hB2 hA1 hA2
      rw [hre, sign_zero] at hs
      have := sign_eq_zero_iff.1 hs.symm
      linarith
    · have h1 : ((calDistanceStatic.lonx lonA lonB).2 -
          (calDistanceStatic.lonx lonA lonB).1) * (PI / 180.0) = 0 := by
        rcases mul_eq_zero.1 him with h | h
        · exact h
        · exact absurd h (ne_of_gt hz)
      rcases mul_eq_zero.1 h1 with h | h
      · linarith
      · exact absurd h (ne_of_gt hD)
  have hrev := brgOfAzimuth_reverse _ hw
  have hneg : (-(⟨6378137.0 * 0.9996 * isometricLatitude latB -
      6378137.0 * 0.9996 * isometricLatitude latA,
      ((calDistanceStatic.lonx lonA lonB).2 - (calDistanceStatic.lonx lonA lonB).1) *
        (PI / 180.0) * (6378137.0 * 0.9996)⟩ : ℂ)) =
      ⟨6378137.0 * 0.9996 * isometricLatitude latA -
        6378137.0 * 0.9996 * isometricLatitude latB,
      ((calDistanceStatic.lonx lonB lonA).2 - (calDistanceStatic.lonx lonB lonA).1) *
        (PI / 180.0) * (6378137.0 * 0.9996)⟩ := by
    rw [lonx_swap lonA lonB]
    apply Complex.ext
    · simp only [Complex.neg_re]; ring
    · simp only [Complex.neg_im]; ring
  rw [hneg] at hrev
  simpa only [Libm.atan2e, realLibm_apply.2.2.1] using hrev

/-! ## Reversal of a pair of fixes: the claim -/

/-- C8, as amended. Reversal symmetry of the bearing of `calDistanceStatic`: for every
pair of fixes `A`, `B` with latitudes in `(-90, 90)` and longitudes in `[-180, 180]`
that are at least `1e-9` degrees apart in latitude, or apart in longitude by at least
`1e-9` and at most `360 - 1e-9` degrees, both bearings are computed and the bearing for
`(B, A)` is the bearing for `(A, B)` plus `180` degrees modulo `360`, up to less than
`1e-9` degrees. -/
theorem calDistanceStatic_reversal (latA lonA latB lonB : ℝ)
    (hA : -90 < latA ∧ latA < 90) (hB : -90 < latB ∧ latB < 90)
    (hlonA : -180 ≤ lonA ∧ lonA ≤ 180) (hlonB : -180 ≤ lonB ∧ lonB ≤ 180)
    (hsep : 1e-9 ≤ |latB - latA| ∨
      (1e-9 ≤ |lonB - lonA| ∧ |lonB - lonA| ≤ 360 - 1e-9)) :
    ∃ bAB bBA, calDistanceStatic.brg realLibm latA lonA latB lonB = some bAB ∧
      calDistanceStatic.brg realLibm latB lonB latA lonA = some bBA ∧
      ∃ n : ℤ, |bBA - (bAB + 180) - 360 * n| < 1e-9 := by
  apply brg_reverse latA lonA latB lonB hA.1 hA.2.le hB.1 hB.2.le
  rintro ⟨hlat, hl⟩
  have h9 : (0 : ℝ) < 1e-9 := by norm_num
  rcases hsep with h | ⟨h1, h2⟩
  · rw [hlat, sub_self, abs_zero] at h
    linarith
  · have hd := (lonx_diff lonA lonB hlonA hlonB).1
    rw [hl, sub_self] at hd
    rcases hd with hd | hd | hd
    · rw [← hd, abs_zero] at h1
      linarith
    · have e : lonB - lonA = 360 := by linarith
      rw [e, abs_of_pos (by norm_num)] at h2
      linarith
    · have e : lonB - lonA = -360 := by linarith
      rw [e, abs_neg, abs_of_pos (by norm_num)] at h2
      linarith

/-- C8 (amended) at the fixes `A = (10, 20)`, `B = (10.001, 21)`. -/
theorem calDistanceStatic_reversal_witness :
    ((-90 : ℝ) < 10 ∧ (10 : ℝ) < 90) ∧ ((-90 : ℝ) < 10.001 ∧ (10.001 : ℝ) < 90) ∧
    ((-180 : ℝ) ≤ 20 ∧ (20 : ℝ) ≤ 180) ∧ ((-180 : ℝ) ≤ 21 ∧ (21 : ℝ) ≤ 180) ∧
    (1e-9 ≤ |(10.001 : ℝ) - 10| ∨
      (1e-9 ≤ |(21 : ℝ) - 20| ∧ |(21 : ℝ) - 20| ≤ 360 - 1e-9)) ∧
    ∃ bAB bBA, calDistanceStatic.brg realLibm 10 20 10.001 21 = some bAB ∧
      calDistanceStatic.brg realLibm 10.001 21 10 20 = some bBA ∧
      ∃ n : ℤ, |bBA - (bAB + 180) - 360 * n| < 1e-9 := by
  have hsep : 1e-9 ≤ |(10.001 : ℝ) - 10| ∨
      (1e-9 ≤ |(21 : ℝ) - 20| ∧ |(21 : ℝ) - 20| ≤ 360 - 1e-9) := by
    left
    rw [abs_of_pos (by norm_num)]
    norm_num
  exact ⟨⟨by norm_num, by norm_num⟩, ⟨by norm_num, by norm_num⟩,
    ⟨by norm_num, by norm_num⟩, ⟨by norm_num, by norm_num⟩, hsep,
    calDistanceStatic_reversal 10 20 10.001 21 ⟨by norm_num, by norm_num⟩
      ⟨by norm_num, by norm_num⟩ ⟨by norm_num, by norm_num⟩ ⟨by norm_num, by norm_num⟩
      hsep⟩

/-- C8, counterexample. The fixes `A = (0, -180)` and `B = (0, 180)` are distinct, with
latitudes in `(-90, 90)` and longitudes in `[-180, 180]`, yet the bearing is `180` in
both directions, which is not a half turn apart modulo `360`; and for the distinct fixes
`(89.9999999995, 0)` and `(89.9999999995, 1)` the latitude guard moves the reference
latitude beyond the pole, so no distance is computed at all. -/
theorem calDistanceStatic_reversal_fails :
    (calDistanceStatic.brg realLibm 0 (-180) 0 180 = some 180 ∧
      calDistanceStatic.brg realLibm 0 180 0 (-180) = some 180 ∧
      ¬ ∃ n : ℤ, |(180 : ℝ) - (180 + 180) - 360 * n| < 1e-9) ∧
    calDistanceStatic.dist realLibm 89.9999999995 0 89.9999999995 1 = none := by
  have hl1 := lonx_values.2
  have hl2 : calDistanceStatic.lonx (180 : ℝ) (-180) = (540, 540) := by
    rw [lonx_swap, hl1]
  refine ⟨⟨brg_of_zero_vector 0 (-180) 180 (by norm_num) (by norm_num) (by rw [hl1]),
    brg_of_zero_vector 0 180 (-180) (by norm_num) (by norm_num) (by rw [hl2]), ?_⟩, ?_⟩
  · rintro ⟨n, hn⟩
    obtain ⟨h1, h2⟩ := abs_lt.1 hn
    rcases le_or_lt n (-1) with hneg | hpos
    · have : (n : ℝ) ≤ -1 := by exact_mod_cast hneg
      norm_num at h2
      linarith
    · have : (0 : ℝ) ≤ n := by exact_mod_cast (by omega : 0 ≤ n)
      norm_num at h1
      linarith
  · have hm : calDistanceStatic.mlat0 (89.9999999995 : ℝ) 89.9999999995 =
        90.0000000005 := by
      rw [(mlat0_cases (89.9999999995 : ℝ) 89.9999999995).2.2.2 rfl]; norm_num
    simp only [calDistanceStatic.dist, calDistanceStatic.distAzimuth, hm,
      toSM_ECC_beyond_pole, Option.bind_eq_bind,
      Option.none_bind]
/-! ## Scan subdivision: index arithmetic of one iteration -/

/-- C19. The representative point lies inside its own subdivision and the lookup is in
bounds. For every cloud (its length a `size_t`), every `N >= 1` and every `i` in
`[0, N)`, with `start_index`, `end_index` and `middle_index` computed as the loop does
(in `size_t` arithmetic): if `start_index < end_index` then
`start_index <= middle_index < end_index <= len` and `points.at(middle_index)` finds a
point; and when the product `len * N` is in range, `HandleLaserScan` returns normally and
every subdivision it forwards has its middle index inside its own range, where a point
is found. -/
theorem HandleLaserScan_middle_index_in_bounds (FromSeconds : ℚ → Int) (N : Nat)
    (start_time : Int) (points : List TimedPoint) (hlen : points.length < SIZE_MOD)
    (hN : 1 ≤ N) :
    (∀ i, i < N →
      points.length * i % SIZE_MOD / N < points.length * (i + 1) % SIZE_MOD / N →
      points.length * i % SIZE_MOD / N ≤
        (points.length * i % SIZE_MOD / N +
          points.length * (i + 1) % SIZE_MOD / N) % SIZE_MOD / 2 ∧
      (points.length * i % SIZE_MOD / N +
          points.length * (i + 1) % SIZE_MOD / N) % SIZE_MOD / 2 <
        points.length * (i + 1) % SIZE_MOD / N ∧
      points.length * (i + 1) % SIZE_MOD / N ≤ points.length ∧
      ∃ p, points[(points.length * i % SIZE_MOD / N +
          points.length * (i + 1) % SIZE_MOD / N) % SIZE_MOD / 2]? = some p) ∧
    (points.length * N < SIZE_MOD →
      ∃ subs, HandleLaserScan FromSeconds N start_time points = some subs ∧
        ∀ s ∈ subs, s.start_index ≤ (s.start_index + s.end_index) / 2 ∧
          (s.start_index + s.end_index) / 2 < s.end_index ∧
          s.end_index ≤ points.length ∧
          ∃ p, points[(s.start_index + s.end_index) / 2]? = some p ∧
            s.subdivision_time = start_time + FromSeconds p.time) := by
  have hNpos : 0 < N := hN
  have hM : 0 < SIZE_MOD := by decide
  constructor
  · intro i hi hlt
    -- every `size_t` quotient by `N` is at most `(SIZE_MOD - 1) / N`
    have hq : ∀ x, x % SIZE_MOD / N ≤ (SIZE_MOD - 1) / N := fun x =>
      Nat.div_le_div_right (by have := Nat.mod_lt x hM; omega)
    have hend : points.length * (i + 1) % SIZE_MOD / N ≤ points.length := by
      rcases Nat.lt_or_ge (points.length * (i + 1)) SIZE_MOD with h | h
      · rw [Nat.mod_eq_of_lt h]
        calc points.length * (i + 1) / N ≤ points.length * N / N :=
              Nat.div_le_div_right (Nat.mul_le_mul_left _ (by omega))
          _ = points.length := Nat.mul_div_cancel _ hNpos
      · have h2 : SIZE_MOD ≤ points.length * N :=
          le_trans h (Nat.mul_le_mul_left _ (by omega))
        calc points.length * (i + 1) % SIZE_MOD / N ≤ (SIZE_MOD - 1) / N := hq _
          _ ≤ points.length * N / N := Nat.div_le_div_right (by omega)
          _ = points.length := Nat.mul_div_cancel _ hNpos
    have hsum : (points.length * i % SIZE_MOD / N +
        points.length * (i + 1) % SIZE_MOD / N) % SIZE_MOD =
        points.length * i % SIZE_MOD / N + points.length * (i + 1) % SIZE_MOD / N := by
      apply Nat.mod_eq_of_lt
      rcases Nat.lt_or_ge N 2 with h | h
      · have hi0 : i = 0 := by omega
        subst hi0
        have h0 : points.length * 0 % SIZE_MOD / N = 0 := by simp
        omega
      · have h1 := hq (points.length * i)
        have h2 := hq (points.length * (i + 1))
        have h3 : (SIZE_MOD - 1) / N ≤ (SIZE_MOD - 1) / 2 :=
          Nat.div_le_div_left h (by decide)
        have h4 : (SIZE_MOD - 1) / 2 + (SIZE_MOD - 1) / 2 < SIZE_MOD := by decide
        omega
    rw [hsum]
    have hmid : (points.length * i % SIZE_MOD / N +
        points.length * (i + 1) % SIZE_MOD / N) / 2 < points.length := by omega
    exact ⟨by omega, by omega, hend, _, List.getElem?_eq_getElem hmid⟩
  · intro hfit
    obtain ⟨subs, hsubs, hc, hall, -⟩ :=
      HandleLaserScan.loop_spec FromSeconds N start_time points hN hfit N 0 (by omega)
    refine ⟨subs, hsubs, ?_⟩
    intro s hs
    have hb := hc.bounds _ _ _ s hs
    exact ⟨by omega, by omega, hb.2.2, (hall s hs).2.2⟩

/-- C19 at the sample cloud of three points with `N = 2`. -/
theorem HandleLaserScan_middle_index_in_bounds_witness :
    samplePoints.length < SIZE_MOD ∧ 1 ≤ 2 ∧
    (samplePoints.length * 1 % SIZE_MOD / 2 < samplePoints.length * (1 + 1) % SIZE_MOD / 2 ∧
      ∃ p, samplePoints[(samplePoints.length * 1 % SIZE_MOD / 2 +
          samplePoints.length * (1 + 1) % SIZE_MOD / 2) % SIZE_MOD / 2]? = some p) ∧
    (samplePoints.length * 2 < SIZE_MOD ∧
      ∃ subs, HandleLaserScan sampleFromSeconds 2 0 samplePoints = some subs ∧
        ∀ s ∈ subs, s.start_index ≤ (s.start_index + s.end_index) / 2 ∧
          (s.start_index + s.end_index) / 2 < s.end_index ∧
          s.end_index ≤ samplePoints.length ∧
          ∃ p, samplePoints[(s.start_index + s.end_index) / 2]? = some p ∧
            s.subdivision_time = 0 + sampleFromSeconds p.time) :=
  ⟨by decide, by decide,
    ⟨by decide,
      ((HandleLaserScan_middle_index_in_bounds sampleFromSeconds 2 0 samplePoints
        (by decide) (by decide)).1 1 (by decide) (by decide)).2.2.2⟩,
    by decide,
    (HandleLaserScan_middle_index_in_bounds sampleFromSeconds 2 0 samplePoints
      (by decide) (by decide)).2 (by decide)⟩

/-- The pose returned by `ToOdometryData` is `ToOdometryData.relative_pose` at the
bearing and the distance that `calDistanceStatic` stores for the current fix and the
origin held after the capture step. -/
theorem ToOdometryData_pose {K : Type} [LinearOrderedField K] (m : Libm K)
    (self : SensorBridge K) (x z : K) :
    (ToOdometryData m self x z).2 =
      (calDistanceStatic.brg m x z (ToOdometryData m self x z).1.first_lat_
        (ToOdometryData m self x z).1.first_lon_).bind (fun angle =>
      (calDistanceStatic.dist m x z (ToOdometryData m self x z).1.first_lat_
        (ToOdometryData m self x z).1.first_lon_).bind (fun dist =>
      some (ToOdometryData.relative_pose m (dist * 1852) angle))) := by
  unfold ToOdometryData
  by_cases h1 : self.first_tag_gps_ = true <;> by_cases h2 : x ≠ 0 ∨ z ≠ 0 <;>
    simp [h1, h2, calDistanceStatic, ToOdometryData.relative_pose]

/-- The constant `M_PI` lies just below `pi`, and sine and cosine near a quarter turn are
near `1` and `0`. -/
theorem trig_near_quarter_turn :
    ((M_PI : ℝ) < Real.pi ∧ Real.pi - (M_PI : ℝ) < 2 / 10 ^ 16) ∧
    ∀ θ ε : ℝ, |θ - Real.pi / 2| ≤ ε →
      1 - ε ^ 2 / 2 ≤ Real.sin θ ∧ Real.sin θ ≤ 1 ∧ |Real.cos θ| ≤ ε := by
  constructor
  · exact ⟨PI_bounds.2.2.1, PI_bounds.2.2.2⟩
  · intro θ ε h
    have hs : Real.sin θ = Real.cos (θ - Real.pi / 2) := by
      rw [Real.cos_sub, Real.cos_pi_div_two, Real.sin_pi_div_two]
      ring
    have hc : Real.cos θ = -Real.sin (θ - Real.pi / 2) := by
      rw [Real.sin_sub, Real.cos_pi_div_two, Real.sin_pi_div_two]
      ring
    refine ⟨?_, Real.sin_le_one θ, ?_⟩
    · rw [hs]
      have h1 := Real.one_sub_sq_div_two_le_cos (x := θ - Real.pi / 2)
      have h2 : (θ - Real.pi / 2) ^ 2 ≤ ε ^ 2 := by
        rw [← sq_abs (θ - Real.pi / 2)]
        exact pow_le_pow_left₀ (abs_nonneg _) h 2
      linarith
    · rw [hc, abs_neg]
      have := (abs_trig_sub_le (θ - Real.pi / 2) 0).1
      simp only [Real.sin_zero, sub_zero] at this
      exact le_trans this h

/-- The pose for a fix due north of the captured origin: with `D` the latitude
difference in metres (degrees times `60 * 1852`), the offset is `(D, 0)` up to the
errors of the constants `PI` and `M_PI`. -/
theorem pose_due_north (st : SensorBridge ℝ) (lat lon : ℝ)
    (htag : st.first_tag_gps_ = false) (hlon : st.first_lon_ = lon)
    (h1 : -90 < st.first_lat_) (h2 : 1e-9 ≤ lat - st.first_lat_) (h3 : lat ≤ 90) :
    ∃ x y, (ToOdometryData realLibm st lat lon).2 = some (x, y) ∧
      |x - (lat - st.first_lat_) * 60 * 1852| ≤
        (lat - st.first_lat_) * 60 * 1852 * 1e-30 ∧
      |y| ≤ (lat - st.first_lat_) * 60 * 1852 * 1e-15 := by
  obtain ⟨hP3, hP4, hPlt, hPgap⟩ := PI_bounds
  obtain ⟨hMlt, hMgap⟩ := trig_near_quarter_turn.1
  have hpos9 : (0 : ℝ) < 1e-9 := by norm_num
  have hlt : st.first_lat_ < lat := by linarith
  have key : ∀ D s c : ℝ, 0 ≤ D → 1 - (1 / 10 ^ 15 : ℝ) ^ 2 / 2 ≤ s → s ≤ 1 →
      |c| ≤ 1 / 10 ^ 15 → |D * s - D| ≤ D * 1e-30 ∧ |D * c| ≤ D * 1e-15 := by
    intro D s c hD hs1 hs2 hc
    have h30 : (1 / 10 ^ 15 : ℝ) ^ 2 / 2 ≤ 1e-30 := by norm_num
    have ha := mul_nonneg hD (sub_nonneg.2 (by linarith : 1 - 1e-30 ≤ s))
    have hb := mul_nonneg hD (sub_nonneg.2 hs2)
    constructor
    · rw [abs_le]
      constructor <;> linarith
    · rw [abs_mul, abs_of_nonneg hD]
      have h15 : (1 / 10 ^ 15 : ℝ) = 1e-15 := by norm_num
      rw [h15] at hc
      exact mul_le_mul_of_nonneg_left hc hD
  have hθ : |180 * (Real.pi - PI) / PI * (M_PI : ℝ) / 180.0 + M_PI / 2 - Real.pi / 2| ≤
      1 / 10 ^ 15 := by
    have hM0 : (0 : ℝ) < M_PI := by unfold M_PI PI; norm_num
    have hM4 : (M_PI : ℝ) < 4 := by unfold M_PI PI; norm_num
    have hq0 : 0 ≤ 180 * (Real.pi - PI) / (PI : ℝ) :=
      div_nonneg (by linarith) (by linarith)
    have hq1 : 180 * (Real.pi - PI) / (PI : ℝ) ≤ 2 / 10 ^ 14 := by
      rw [div_le_iff₀ (by linarith)]
      nlinarith
    have h180 : 180 * (Real.pi - PI) / PI * (M_PI : ℝ) / 180.0 =
        180 * (Real.pi - PI) / PI * (M_PI / 180) := by norm_num; ring
    rw [h180, abs_le]
    generalize 180 * (Real.pi - PI) / (PI : ℝ) = q at hq0 hq1 ⊢
    constructor <;> nlinarith
  have hlx : calDistanceStatic.lonx lon lon = (lon, lon) := lonx_values.1 lon
  -- the bearing block
  have hproj := toSM_ECC_real_of_mem st.first_lat_ lon lat lon h1 (by linarith)
    (by linarith) h3
  have hnorth : 6378137.0 * 0.9996 * isometricLatitude st.first_lat_ -
      6378137.0 * 0.9996 * isometricLatitude lat < 0 := by
    have := isometricLatitude_lt st.first_lat_ lat hlt h1 h3
    have hz : (0 : ℝ) < 6378137.0 * 0.9996 := by norm_num
    nlinarith
  have hC : realLibm.atan2 ((lon - lon) * (PI / 180.0) * (6378137.0 * 0.9996))
      (6378137.0 * 0.9996 * isometricLatitude st.first_lat_ -
        6378137.0 * 0.9996 * isometricLatitude lat) = Real.pi := by
    rw [realLibm_apply.2.2.1, sub_self, zero_mul, zero_mul]
    exact Complex.arg_ofReal_of_neg hnorth
  have hratio : Real.pi * 180 / PI - 180 = 180 * (Real.pi - PI) / PI := by
    field_simp
    ring
  have hbrgv : calDistanceStatic.brgOfAzimuth Real.pi = 180 * (Real.pi - PI) / PI := by
    unfold calDistanceStatic.brgOfAzimuth
    have hb0 : 0 ≤ 180 * (Real.pi - PI) / (PI : ℝ) :=
      div_nonneg (by linarith) (by linarith)
    have hge : (180 : ℝ) + Real.pi * 180 / PI ≥ 360 := by linarith
    have hnl : ¬ (180 : ℝ) + Real.pi * 180 / PI < 0 := by linarith
    simp only [hnl, hge, if_true, if_false]
    linarith
  have hbrg : calDistanceStatic.brg realLibm lat lon st.first_lat_ lon =
      some (180 * (Real.pi - PI) / PI) := by
    rw [brg_eq_some_iff]
    refine ⟨_, by rw [hlx]; exact hproj, ?_⟩
    simp only [Libm.atan2e]
    rw [hC, hbrgv]
  -- the distance block
  have hm : calDistanceStatic.mlat0 lat st.first_lat_ = lat := by
    apply (mlat0_cases lat st.first_lat_).2.2.1
    rw [abs_sub_comm, abs_of_pos (by linarith)]
    exact h2
  have hdist : calDistanceStatic.dist realLibm lat lon st.first_lat_ lon =
      some ((lat - st.first_lat_) * 60) := by
    rw [dist_of_equal_longitudes lat lon st.first_lat_ lon h1 (by linarith)
      (by rw [hm]; linarith) (by rw [hm]; exact h3) (by rw [hlx]), hm,
      abs_sub_comm, abs_of_pos (by linarith)]
  -- the offset
  have hmem := ToOdometryData_members realLibm st lat lon
  rw [if_neg (by simp [htag])] at hmem
  have hpose : (ToOdometryData realLibm st lat lon).2 =
      some ((lat - st.first_lat_) * 60 * 1852 *
          Real.sin (180 * (Real.pi - PI) / PI * (M_PI : ℝ) / 180.0 + M_PI / 2),
        (lat - st.first_lat_) * 60 * 1852 *
          Real.cos (180 * (Real.pi - PI) / PI * (M_PI : ℝ) / 180.0 + M_PI / 2)) := by
    rw [ToOdometryData_pose realLibm st lat lon, hmem]
    simp only [hlon, hbrg, hdist, Option.some_bind]
    rfl
  refine ⟨_, _, hpose, ?_⟩
  have hD : 0 ≤ (lat - st.first_lat_) * 60 * 1852 := by nlinarith
  obtain ⟨hs1, hs2, hc⟩ := trig_near_quarter_turn.2 _ _ hθ
  exact key _ _ _ hD hs1 hs2 hc
/-! ## Position tracker: the claims on the offset -/

/-- C12, as amended. Axis convention of the tangent-plane offset: with
`x = distance * sin(bearing_rad + M_PI/2)` and `y = distance * cos(bearing_rad + M_PI/2)`
as computed in `ToOdometryData`, a north bearing (`0` degrees) maps to the plane's `+x`
axis: for bearing `0` and every distance `d >= 0` the offset is
`(d * sin(M_PI/2), d * cos(M_PI/2))`, which is `(d, 0)` up to a relative error of
`1e-15`: `d * (1 - 1e-15) <= x <= d` and `0 <= y <= d * 1e-15`. -/
theorem ToOdometryData_north_axis (d : ℝ) (hd : 0 ≤ d) :
    ToOdometryData.relative_pose realLibm d 0 =
      (d * Real.sin (M_PI / 2), d * Real.cos (M_PI / 2)) ∧
    d * (1 - 1e-15) ≤ (ToOdometryData.relative_pose realLibm d 0).1 ∧
    (ToOdometryData.relative_pose realLibm d 0).1 ≤ d ∧
    0 ≤ (ToOdometryData.relative_pose realLibm d 0).2 ∧
    (ToOdometryData.relative_pose realLibm d 0).2 ≤ d * 1e-15 := by
  obtain ⟨hMlt, hMgap⟩ := trig_near_quarter_turn.1
  have hM0 : (0 : ℝ) < M_PI := by unfold M_PI PI; norm_num
  have hθ : |(M_PI : ℝ) / 2 - Real.pi / 2| ≤ 1 / 10 ^ 16 := by
    rw [abs_le]
    constructor <;> linarith
  obtain ⟨hs1, hs2, hc⟩ := trig_near_quarter_turn.2 _ _ hθ
  have hc0 : 0 < Real.cos ((M_PI : ℝ) / 2) :=
    Real.cos_pos_of_mem_Ioo ⟨by linarith, by linarith⟩
  have hval : ToOdometryData.relative_pose realLibm d 0 =
      (d * Real.sin (M_PI / 2), d * Real.cos (M_PI / 2)) := by
    simp only [ToOdometryData.relative_pose, realLibm_apply.2.1, realLibm_apply.1,
      zero_mul, zero_div, zero_add]
  rw [hval]
  rw [abs_of_pos hc0] at hc
  generalize Real.sin ((M_PI : ℝ) / 2) = s at hs1 hs2
  generalize Real.cos ((M_PI : ℝ) / 2) = c at hc hc0
  have h32 : (1 / 10 ^ 16 : ℝ) ^ 2 / 2 ≤ 1e-15 := by norm_num
  have h16 : (1 / 10 ^ 16 : ℝ) ≤ 1e-15 := by norm_num
  have ha := mul_nonneg hd (sub_nonneg.2 (by linarith : 1 - 1e-15 ≤ s))
  have hb := mul_nonneg hd (sub_nonneg.2 hs2)
  have hcc := mul_nonneg hd hc0.le
  have hdd := mul_nonneg hd (sub_nonneg.2 (by linarith : c ≤ 1e-15))
  refine ⟨rfl, ?_, ?_, ?_, ?_⟩
  · show d * (1 - 1e-15) ≤ d * s
    linarith
  · show d * s ≤ d
    linarith
  · exact hcc
  · show d * c ≤ d * 1e-15
    linarith

/-- C12 (amended) at the distance of one metre. -/
theorem ToOdometryData_north_axis_witness :
    (0 : ℝ) ≤ 1 ∧
    (1 : ℝ) * (1 - 1e-15) ≤ (ToOdometryData.relative_pose realLibm 1 0).1 ∧
    (ToOdometryData.relative_pose realLibm 1 0).1 ≤ 1 ∧
    0 ≤ (ToOdometryData.relative_pose realLibm 1 0).2 ∧
    (ToOdometryData.relative_pose realLibm 1 0).2 ≤ 1 * 1e-15 :=
  ⟨by norm_num, (ToOdometryData_north_axis 1 (by norm_num)).2⟩

/-- C12, counterexample. For the bearing `0` and the distance `d = 1` the offset is not
`(0, 1)`: its `x` component is at least `1 - 1e-15` and its `y` component is at most
`1e-15`. The `y` component is positive, so the offset is not exactly `(1, 0)` either. -/
theorem ToOdometryData_north_not_on_y_axis :
    ToOdometryData.relative_pose realLibm 1 0 ≠ (0, 1) ∧
    1 - 1e-15 ≤ (ToOdometryData.relative_pose realLibm 1 0).1 ∧
    (ToOdometryData.relative_pose realLibm 1 0).2 ≤ 1e-15 ∧
    0 < (ToOdometryData.relative_pose realLibm 1 0).2 := by
  obtain ⟨hMlt, hMgap⟩ := trig_near_quarter_turn.1
  have hM0 : (0 : ℝ) < M_PI := by unfold M_PI PI; norm_num
  have hθ : |(M_PI : ℝ) / 2 - Real.pi / 2| ≤ 1 / 10 ^ 16 := by
    rw [abs_le]
    constructor <;> linarith
  obtain ⟨hs1, -, hc⟩ := trig_near_quarter_turn.2 _ _ hθ
  have hc0 : 0 < Real.cos ((M_PI : ℝ) / 2) :=
    Real.cos_pos_of_mem_Ioo ⟨by linarith, by linarith⟩
  have hval : ToOdometryData.relative_pose realLibm 1 0 =
      (Real.sin (M_PI / 2), Real.cos (M_PI / 2)) := by
    simp only [ToOdometryData.relative_pose, realLibm_apply.2.1, realLibm_apply.1,
      zero_mul, zero_div, zero_add, one_mul]
  have h32 : (1 / 10 ^ 16 : ℝ) ^ 2 / 2 ≤ 1e-15 := by norm_num
  have h16 : (1 / 10 ^ 16 : ℝ) ≤ 1e-15 := by norm_num
  have hx : (1 : ℝ) - 1e-15 ≤ Real.sin (M_PI / 2) := by linarith
  rw [hval]
  refine ⟨?_, hx, ?_, hc0⟩
  · intro h
    have h1 : Real.sin ((M_PI : ℝ) / 2) = 0 := congrArg Prod.fst h
    rw [h1] at hx
    norm_num at hx
  · show Real.cos ((M_PI : ℝ) / 2) ≤ 1e-15
    have := (abs_le.1 hc).2
    linarith

/-- C11, as amended. Concrete position scenario: on a tracker whose origin is not yet
captured, after a first fix `(lat = 10.0000, lon = 20.0000)` and then a second fix
`(lat = 10.0010, lon = 20.0000)`, the second `ToOdometryData` call returns a pose whose
`x` offset is `111.12` metres (`0.0010` degrees of latitude are `0.06` arc-minutes, at
`1852` metres each) and whose `y` offset is `0`, both within `1e-9` metres. -/
theorem ToOdometryData_second_fix_offset (self : SensorBridge ℝ)
    (hfresh : self.first_tag_gps_ = true) :
    ∃ x y, (ToOdometryData realLibm (ToOdometryData realLibm self 10 20).1
        10.001 20).2 = some (x, y) ∧
      |x - 111.12| < 1e-9 ∧ |y| < 1e-9 := by
  have hs1 : (ToOdometryData realLibm self 10 20).1 = ⟨false, 10, 20, 10, 20⟩ := by
    rw [ToOdometryData_members, if_pos ⟨hfresh, Or.inl (by norm_num)⟩]
  rw [hs1]
  obtain ⟨x, y, hxy, hx, hy⟩ := pose_due_north ⟨false, 10, 20, 10, 20⟩ 10.001 20 rfl rfl
    (by norm_num) (by norm_num) (by norm_num)
  refine ⟨x, y, hxy, ?_, ?_⟩
  · have e : ((10.001 : ℝ) - 10) * 60 * 1852 = 111.12 := by norm_num
    simp only [e] at hx
    exact lt_of_le_of_lt hx (by norm_num)
  · have e : ((10.001 : ℝ) - 10) * 60 * 1852 = 111.12 := by norm_num
    simp only [e] at hy
    exact lt_of_le_of_lt hy (by norm_num)

/-- C11 (amended) at the tracker whose members are all zero and whose flag is set. -/
theorem ToOdometryData_second_fix_offset_witness :
    (⟨true, 0, 0, 0, 0⟩ : SensorBridge ℝ).first_tag_gps_ = true ∧
    ∃ x y, (ToOdometryData realLibm (ToOdometryData realLibm ⟨true, 0, 0, 0, 0⟩ 10 20).1
        10.001 20).2 = some (x, y) ∧
      |x - 111.12| < 1e-9 ∧ |y| < 1e-9 :=
  ⟨rfl, ToOdometryData_second_fix_offset ⟨true, 0, 0, 0, 0⟩ rfl⟩

/-- C11, counterexample. In the scenario of the claim the returned pose does not have a
`y` offset within one metre of `166.7` and an `x` offset below one metre: its `x`
offset exceeds `111` metres and its `y` offset is below one metre. -/
theorem ToOdometryData_second_fix_not_on_y_axis :
    (∃ x y, (ToOdometryData realLibm (ToOdometryData realLibm ⟨true, 0, 0, 0, 0⟩ 10 20).1
        10.001 20).2 = some (x, y) ∧ 111 < x ∧ |y| < 1) ∧
    ¬ ∃ x y, (ToOdometryData realLibm (ToOdometryData realLibm ⟨true, 0, 0, 0, 0⟩ 10 20).1
        10.001 20).2 = some (x, y) ∧ |y - 166.7| < 1 ∧ |x| < 1 := by
  have hs1 : (ToOdometryData realLibm ⟨true, 0, 0, 0, 0⟩ 10 20).1 =
      (⟨false, 10, 20, 10, 20⟩ : SensorBridge ℝ) := by
    rw [ToOdometryData_members, if_pos ⟨rfl, Or.inl (by norm_num)⟩]
  rw [hs1]
  obtain ⟨x, y, hxy, hx, hy⟩ := pose_due_north ⟨false, 10, 20, 10, 20⟩ 10.001 20 rfl rfl
    (by norm_num) (by norm_num) (by norm_num)
  have e : ((10.001 : ℝ) - 10) * 60 * 1852 = 111.12 := by norm_num
  simp only [e] at hx hy
  have hx1 : 111 < x := by
    have := (abs_le.1 hx).1
    norm_num at this ⊢
    linarith
  have hy1 : |y| < 1 := lt_of_le_of_lt hy (by norm_num)
  refine ⟨⟨x, y, hxy, hx1, hy1⟩, ?_⟩
  rintro ⟨x2, y2, hxy2, -, hx2⟩
  rw [hxy] at hxy2
  have hx3 : x = x2 := congrArg Prod.fst (Option.some.inj hxy2)
  rw [← hx3] at hx2
  have := (abs_lt.1 hx2).2
  linarith
/-! ## Message handlers: the frame check -/

/-- `CheckNoLeadingSlash` fails exactly on the identifiers whose first character is `/`
and returns every other identifier unchanged. -/
theorem CheckNoLeadingSlash_cases (frame_id : String) :
    (frame_id.data.head? = some '/' →
      CheckNoLeadingSlash frame_id = Except.error FatalError.frame_id_leading_slash) ∧
    (frame_id.data.head? ≠ some '/' → CheckNoLeadingSlash frame_id = Except.ok frame_id) := by
  obtain ⟨l⟩ := frame_id
  cases l with
  | nil =>
    refine ⟨fun h => by simp at h, fun _ => ?_⟩
    simp [CheckNoLeadingSlash, String.length]
  | cons a t =>
    constructor
    · intro h
      have ha : a = '/' := by simpa using h
      subst ha
      simp [CheckNoLeadingSlash, String.length, String.get, String.utf8GetAux]
    · intro h
      have ha : a ≠ '/' := by simpa using h
      simp [CheckNoLeadingSlash, String.length, String.get, String.utf8GetAux, ha]
/-! ## Orientation tracker: the claims -/

/-- C13, at the failing input. Two messages that both pass the checks and find their
transform, with the orientations `(w, x, y, z) = (1, 0, 0, 0)` (vector part all zero)
and `(0, 1, 0, 0)`, on a tracker whose baseline is not yet captured: the first sample
whose vector part is not all zero is the second one, yet the baseline stored after both
calls is the first one; the sample with the all-zero vector part has set the baseline,
already in the first call. -/
theorem ToImuData_baseline_zero_vector_first :
    (∀ msg ∈ [sampleImu ⟨1, 0, 0, 0⟩, sampleImu ⟨0, 1, 0, 0⟩], ∀ st,
      ∃ d, (ToImuData sampleCollaborators st msg).value = Except.ok (some d)) ∧
    ([sampleImu ⟨1, 0, 0, 0⟩, sampleImu ⟨0, 1, 0, 0⟩].find? (fun msg =>
      decide (msg.orientation.x ≠ 0 ∨ msg.orientation.y ≠ 0 ∨
        msg.orientation.z ≠ 0))).map (fun msg => msg.orientation) = some ⟨0, 1, 0, 0⟩ ∧
    (ToImuData.run sampleCollaborators ⟨true, ⟨0, 0, 0, 0⟩, ⟨0, 0, 0, 0⟩, ⟨0, 0, 0, 0⟩⟩
      [sampleImu ⟨1, 0, 0, 0⟩, sampleImu ⟨0, 1, 0, 0⟩]).first_time_orientiation_ =
        ⟨1, 0, 0, 0⟩ ∧
    (⟨1, 0, 0, 0⟩ : Quaterniond ℚ) ≠ ⟨0, 1, 0, 0⟩ ∧
    (ToImuData sampleCollaborators ⟨true, ⟨0, 0, 0, 0⟩, ⟨0, 0, 0, 0⟩, ⟨0, 0, 0, 0⟩⟩
      (sampleImu ⟨1, 0, 0, 0⟩)).self.first_time_orientiation_ = ⟨1, 0, 0, 0⟩ := by
  have hframe : CheckNoLeadingSlash "imu_link" = Except.ok "imu_link" := rfl
  have hsmall : (0 : ℚ) < 1e-5 := by norm_num
  refine ⟨?_, ?_, ?_, ?_, ?_⟩
  · intro msg hmsg st
    simp only [List.mem_cons, List.mem_singleton, List.mem_nil_iff, or_false] at hmsg
    rcases hmsg with rfl | rfl <;>
      simp [ToImuData, sampleCollaborators, sampleImu, hframe, hsmall]
  · simp [sampleImu, List.find?]
  · simp [ToImuData.run, ToImuData, sampleCollaborators, sampleImu, hframe, hsmall]
  · intro h
    have := congrArg Quaterniond.w h
    norm_num at this
  · simp [ToImuData, sampleCollaborators, sampleImu, hframe, hsmall]

/-- C14. IMU covariance sentinel. For every IMU message, whatever the collaborators and
the members: if `linear_acceleration_covariance[0] == -1` or
`angular_velocity_covariance[0] == -1` then `ToImuData` ends in the corresponding failed
check with no transform lookup made and the members untouched, and `HandleImuMessage`
forwards no `ImuData`; if neither entry is `-1`, `ToImuData` does not end in either of
the two sentinel checks. -/
theorem ToImuData_covariance_sentinel {K R : Type} [LinearOrderedField K]
    (c : Collaborators K R) (self : SensorBridgeImu K) (sensor_id : String) (msg : Imu K) :
    (msg.linear_acceleration_covariance 0 = -1 ∨ msg.angular_velocity_covariance 0 = -1 →
      (∃ e, (e = FatalError.linear_acceleration_covariance ∨
          e = FatalError.angular_velocity_covariance) ∧
        (ToImuData c self msg).value = Except.error e ∧
        (HandleImuMessage c self sensor_id msg).2.fatal = some e) ∧
      (ToImuData c self msg).lookups = [] ∧
      (ToImuData c self msg).self = self ∧
      (HandleImuMessage c self sensor_id msg).1 = self ∧
      (HandleImuMessage c self sensor_id msg).2.lookups = [] ∧
      (HandleImuMessage c self sensor_id msg).2.forwarded = []) ∧
    (msg.linear_acceleration_covariance 0 ≠ -1 → msg.angular_velocity_covariance 0 ≠ -1 →
      (ToImuData c self msg).value ≠
        Except.error FatalError.linear_acceleration_covariance ∧
      (ToImuData c self msg).value ≠
        Except.error FatalError.angular_velocity_covariance) := by
  constructor
  · intro h
    by_cases h1 : msg.linear_acceleration_covariance 0 = -1
    · refine ⟨⟨FatalError.linear_acceleration_covariance, Or.inl rfl, ?_, ?_⟩, ?_, ?_, ?_,
        ?_, ?_⟩ <;> simp [HandleImuMessage, ToImuData, h1]
    · have h2 : msg.angular_velocity_covariance 0 = -1 := h.resolve_left h1
      refine ⟨⟨FatalError.angular_velocity_covariance, Or.inr rfl, ?_, ?_⟩, ?_, ?_, ?_,
        ?_, ?_⟩ <;> simp [HandleImuMessage, ToImuData, h1, h2]
  · intro h1 h2
    unfold ToImuData
    simp only [h1, h2, if_false]
    cases hf : CheckNoLeadingSlash msg.header_frame_id with
    | error e =>
      have he : e = FatalError.frame_id_leading_slash := by
        unfold CheckNoLeadingSlash at hf
        split_ifs at hf
        cases hf
        rfl
      subst he
      simp
    | ok frame_id =>
      cases hl : c.LookupToTracking (c.FromRos msg.header_stamp) frame_id with
      | none => simp [hl]
      | some T =>
        by_cases hn : c.translation_norm T < 1e-5 <;> simp [hl, hn]

/-- C14 at a message whose `linear_acceleration_covariance[0]` is `-1`. -/
theorem ToImuData_covariance_sentinel_witness :
    ({ sampleImu ⟨1, 0, 0, 0⟩ with
        linear_acceleration_covariance := fun _ => -1 } : Imu ℚ).linear_acceleration_covariance
      0 = -1 ∧
    (HandleImuMessage sampleCollaborators ⟨true, ⟨0, 0, 0, 0⟩, ⟨0, 0, 0, 0⟩, ⟨0, 0, 0, 0⟩⟩
      "imu" { sampleImu ⟨1, 0, 0, 0⟩ with
        linear_acceleration_covariance := fun _ => -1 }).2.forwarded = [] ∧
    (ToImuData sampleCollaborators ⟨true, ⟨0, 0, 0, 0⟩, ⟨0, 0, 0, 0⟩, ⟨0, 0, 0, 0⟩⟩
      { sampleImu ⟨1, 0, 0, 0⟩ with
        linear_acceleration_covariance := fun _ => -1 }).lookups = [] :=
  ⟨rfl,
    ((ToImuData_covariance_sentinel sampleCollaborators
      ⟨true, ⟨0, 0, 0, 0⟩, ⟨0, 0, 0, 0⟩, ⟨0, 0, 0, 0⟩⟩ "imu"
      { sampleImu ⟨1, 0, 0, 0⟩ with linear_acceleration_covariance := fun _ => -1 }).1
        (Or.inl rfl)).2.2.2.2.2,
    ((ToImuData_covariance_sentinel sampleCollaborators
      ⟨true, ⟨0, 0, 0, 0⟩, ⟨0, 0, 0, 0⟩, ⟨0, 0, 0, 0⟩⟩ "imu"
      { sampleImu ⟨1, 0, 0, 0⟩ with linear_acceleration_covariance := fun _ => -1 }).1
        (Or.inl rfl)).2.1⟩
/-! ## Forwarding of range data and the frame check: the claims -/

/-- With a frame identifier that passes the frame check, the `HandleRangefinder` calls of
a scan look up every subdivision and forward those whose lookup succeeds. -/
theorem HandleRangefinder.all_of_frame_ok {K R : Type} [LinearOrderedField K]
    (c : Collaborators K R) (sensor_id frame_id : String)
    (hframe : CheckNoLeadingSlash frame_id = Except.ok frame_id) (subs : List Subdivision) :
    HandleRangefinder.all c sensor_id frame_id subs =
      ⟨subs.map (fun s => (s.subdivision_time, frame_id)),
        subs.filterMap (fun s =>
          (c.LookupToTracking s.subdivision_time frame_id).map (fun sensor_to_tracking =>
            (⟨sensor_id, s.subdivision_time, c.translation sensor_to_tracking,
              c.TransformTimedPointCloud s.subdivision sensor_to_tracking⟩ :
                RangefinderData))),
        none⟩ := by
  induction subs with
  | nil => rfl
  | cons s rest ih =>
    cases hl : c.LookupToTracking s.subdivision_time frame_id with
    | none =>
      simp [HandleRangefinder.all, HandleRangefinder, hframe, hl, ih]
    | some T =>
      simp [HandleRangefinder.all, HandleRangefinder, hframe, hl, ih]

/-- C15, as amended. Drop-and-continue on transform lookup failure, with the lookup a
function returning an optional transform: for a frame identifier that passes the frame
check (it does not start with `/`), every `N >= 1` and every cloud (with the `size_t`
product `len * N` in range), `HandleLaserScan` looks up a transform for each non-empty
subdivision, at the time of the subdivision and the frame of the scan, in order, and the
range observations it forwards are exactly the non-empty subdivisions whose lookup is
available, in order, each forwarded once, its whole sub-cloud passed through
`TransformTimedPointCloud` with the transform found; a subdivision whose lookup is
unavailable is skipped and the later ones are still handled; no check fails; and if the
lookup is unavailable for every subdivision, nothing is forwarded. -/
theorem HandleLaserScan_drop_and_continue {K R : Type} [LinearOrderedField K]
    (c : Collaborators K R) (FromSeconds : ℚ → Int) (N : Nat) (sensor_id : String)
    (start_time : Int) (frame_id : String) (points : List TimedPoint) (hN : 1 ≤ N)
    (hfit : points.length * N < SIZE_MOD)
    (hframe : CheckNoLeadingSlash frame_id = Except.ok frame_id) :
    ∃ subs h, HandleLaserScan FromSeconds N start_time points = some subs ∧
      subs.map (fun s => (s.start_index, s.end_index)) =
        ((List.range N).map (fun i => (points.length * i / N,
          points.length * (i + 1) / N))).filter (fun r => decide (r.1 ≠ r.2)) ∧
      HandleLaserScan.forwarded c FromSeconds N sensor_id start_time frame_id points =
        some h ∧
      h.fatal = none ∧
      h.lookups = subs.map (fun s => (s.subdivision_time, frame_id)) ∧
      h.forwarded = subs.filterMap (fun s =>
        (c.LookupToTracking s.subdivision_time frame_id).map (fun sensor_to_tracking =>
          (⟨sensor_id, s.subdivision_time, c.translation sensor_to_tracking,
            c.TransformTimedPointCloud s.subdivision sensor_to_tracking⟩ :
              RangefinderData))) ∧
      ((∀ s ∈ subs, c.LookupToTracking s.subdivision_time frame_id = none) →
        h.forwarded = []) := by
  obtain ⟨subs, hsubs, -, -, hmap⟩ :=
    HandleLaserScan.loop_spec FromSeconds N start_time points hN hfit N 0 (by omega)
  have hsubs2 : HandleLaserScan FromSeconds N start_time points = some subs := hsubs
  have hall := HandleRangefinder.all_of_frame_ok c sensor_id frame_id hframe subs
  refine ⟨subs, HandleRangefinder.all c sensor_id frame_id subs, hsubs2, ?_, ?_, ?_, ?_, ?_,
    ?_⟩
  · rw [hmap, nonEmptyRanges, List.range_eq_range']
  · rw [HandleLaserScan.forwarded, hsubs2, Option.map_some']
  · rw [hall]
  · rw [hall]
  · rw [hall]
  · intro hnone
    rw [hall]
    show List.filterMap _ subs = []
    rw [List.filterMap_eq_nil_iff]
    intro s hs
    rw [hnone s hs]
    rfl

/-- C15 (amended) at the sample cloud of three points with `N = 2` and the frame
`laser`, where both lookups succeed. -/
theorem HandleLaserScan_drop_and_continue_witness :
    1 ≤ 2 ∧ samplePoints.length * 2 < SIZE_MOD ∧
    CheckNoLeadingSlash "laser" = Except.ok "laser" ∧
    ∃ subs h, HandleLaserScan sampleFromSeconds 2 0 samplePoints = some subs ∧
      HandleLaserScan.forwarded sampleCollaborators sampleFromSeconds 2 "scan" 0 "laser"
        samplePoints = some h ∧
      h.fatal = none ∧
      h.forwarded = subs.filterMap (fun s =>
        (sampleCollaborators.LookupToTracking s.subdivision_time "laser").map
          (fun sensor_to_tracking =>
            (⟨"scan", s.subdivision_time, sampleCollaborators.translation sensor_to_tracking,
              sampleCollaborators.TransformTimedPointCloud s.subdivision
                sensor_to_tracking⟩ : RangefinderData))) := by
  obtain ⟨subs, h, h1, -, h3, h4, -, h6, -⟩ :=
    HandleLaserScan_drop_and_continue sampleCollaborators sampleFromSeconds 2 "scan" 0
      "laser" samplePoints (by decide) (by decide) rfl
  exact ⟨by decide, by decide, rfl, subs, h, h1, h3, h4, h6⟩

/-- C15, counterexample. For the scan frame `/laser` and collaborators whose lookup is
available at every time and frame, the single non-empty subdivision of the sample cloud
(`N = 1`) is not forwarded: the frame check fails in `HandleRangefinder` before any
lookup, and no range observation reaches the trajectory builder. -/
theorem HandleLaserScan_leading_slash_forwards_nothing :
    (∀ time, sampleCollaborators.LookupToTracking time "/laser" = some ()) ∧
    (∃ s, HandleLaserScan sampleFromSeconds 1 0 samplePoints = some [s] ∧
      s.subdivision = samplePoints) ∧
    HandleLaserScan.forwarded sampleCollaborators sampleFromSeconds 1 "scan" 0 "/laser"
      samplePoints = some ⟨[], [], some FatalError.frame_id_leading_slash⟩ := by
  have hframe : CheckNoLeadingSlash "/laser" =
      Except.error FatalError.frame_id_leading_slash := rfl
  have hp : HandleLaserScan sampleFromSeconds 1 0 samplePoints =
      some [⟨0, 3, 0 + sampleFromSeconds (1 / 10), samplePoints⟩] := by
    simp [HandleLaserScan, HandleLaserScan.loop, samplePoints, SIZE_MOD]
  refine ⟨fun _ => rfl, ⟨_, hp, rfl⟩, ?_⟩
  rw [HandleLaserScan.forwarded, hp]
  simp [HandleRangefinder.all, HandleRangefinder, hframe]

/-- C16, as amended. Frame-naming validation. `CheckNoLeadingSlash` rejects, as a failed
`CHECK`, every identifier whose first character is `/`, and returns every other
identifier, the empty string included, unchanged. For orientation messages (`ToImuData`,
once the covariance checks have passed) and for ranging data (`HandleRangefinder`) the
check comes before the frame name is used: with a leading `/` the call ends in the failed
check with no transform lookup made, nothing forwarded and the members untouched;
without it the lookup is made with the identifier unchanged. For position messages no
check is made: `HandleOdometryMessage` never ends in a failed check and forwards one
observation for every message, whatever its frame identifiers. -/
theorem CheckNoLeadingSlash_frame_validation {K R : Type} [LinearOrderedField K]
    (c : Collaborators K R) (frame_id : String) :
    (frame_id.data.head? = some '/' →
      CheckNoLeadingSlash frame_id = Except.error FatalError.frame_id_leading_slash ∧
      (∀ (self : SensorBridgeImu K) (msg : Imu K), msg.header_frame_id = frame_id →
        msg.linear_acceleration_covariance 0 ≠ -1 →
        msg.angular_velocity_covariance 0 ≠ -1 →
        (ToImuData c self msg).value = Except.error FatalError.frame_id_leading_slash ∧
        (ToImuData c self msg).lookups = [] ∧ (ToImuData c self msg).self = self) ∧
      (∀ (sensor_id : String) (time : Int) (ranges : List TimedPoint),
        HandleRangefinder c sensor_id time frame_id ranges =
          ⟨[], [], some FatalError.frame_id_leading_slash⟩)) ∧
    (frame_id.data.head? ≠ some '/' →
      CheckNoLeadingSlash frame_id = Except.ok frame_id ∧
      (∀ (self : SensorBridgeImu K) (msg : Imu K), msg.header_frame_id = frame_id →
        msg.linear_acceleration_covariance 0 ≠ -1 →
        msg.angular_velocity_covariance 0 ≠ -1 →
        (ToImuData c self msg).lookups = [(c.FromRos msg.header_stamp, frame_id)] ∧
        (ToImuData c self msg).value ≠ Except.error FatalError.frame_id_leading_slash) ∧
      (∀ (sensor_id : String) (time : Int) (ranges : List TimedPoint),
        (HandleRangefinder c sensor_id time frame_id ranges).lookups = [(time, frame_id)] ∧
        (HandleRangefinder c sensor_id time frame_id ranges).fatal = none)) ∧
    CheckNoLeadingSlash "" = Except.ok "" ∧
    (∀ (m : Libm K) (FromRos : Int → Int) (self : SensorBridge K) (sensor_id : String)
      (msg : Odometry K),
      (HandleOdometryMessage m FromRos self sensor_id msg).2.fatal = none ∧
      (HandleOdometryMessage m FromRos self sensor_id msg).2.lookups = [] ∧
      (HandleOdometryMessage m FromRos self sensor_id msg).2.forwarded.length = 1) := by
  refine ⟨fun h => ?_, fun h => ?_, rfl, fun m FromRos self sensor_id msg => ⟨rfl, rfl, rfl⟩⟩
  · have hf := (CheckNoLeadingSlash_cases frame_id).1 h
    refine ⟨hf, ?_, ?_⟩
    · intro self msg hmsg h1 h2
      subst hmsg
      simp [ToImuData, h1, h2, hf]
    · intro sensor_id time ranges
      simp [HandleRangefinder, hf]
  · have hf := (CheckNoLeadingSlash_cases frame_id).2 h
    refine ⟨hf, ?_, ?_⟩
    · intro self msg hmsg h1 h2
      subst hmsg
      unfold ToImuData
      simp only [h1, h2, if_false, hf]
      cases hl : c.LookupToTracking (c.FromRos msg.header_stamp) msg.header_frame_id with
      | none => simp [hl]
      | some T =>
        by_cases hn : c.translation_norm T < 1e-5 <;> simp [hl, hn]
    · intro sensor_id time ranges
      unfold HandleRangefinder
      simp only [hf]
      cases hl : c.LookupToTracking time frame_id with
      | none => simp [hl]
      | some T => simp [hl]

/-- C16 (amended) at the frame identifiers `/laser` and `laser`. -/
theorem CheckNoLeadingSlash_frame_validation_witness :
    "/laser".data.head? = some '/' ∧ "laser".data.head? ≠ some '/' ∧
    CheckNoLeadingSlash "/laser" = Except.error FatalError.frame_id_leading_slash ∧
    HandleRangefinder sampleCollaborators "scan" 0 "/laser" samplePoints =
      ⟨[], [], some FatalError.frame_id_leading_slash⟩ ∧
    CheckNoLeadingSlash "laser" = Except.ok "laser" ∧
    (HandleRangefinder sampleCollaborators "scan" 0 "laser" samplePoints).lookups =
      [(0, "laser")] :=
  ⟨by decide, by decide,
    ((CheckNoLeadingSlash_frame_validation sampleCollaborators "/laser").1 (by decide)).1,
    ((CheckNoLeadingSlash_frame_validation sampleCollaborators "/laser").1
      (by decide)).2.2 "scan" 0 samplePoints,
    ((CheckNoLeadingSlash_frame_validation sampleCollaborators "laser").2.1 (by decide)).1,
    (((CheckNoLeadingSlash_frame_validation sampleCollaborators "laser").2.1
      (by decide)).2.2 "scan" 0 samplePoints).1⟩

/-- C16, counterexample. A position message whose frame identifiers `/map` and `/gps`
both start with `/`, identifiers that `CheckNoLeadingSlash` rejects, is not rejected:
`HandleOdometryMessage` ends without a failed check, forwards one observation, and
`ToOdometryData` has captured the fix of the message as origin. -/
theorem HandleOdometryMessage_accepts_leading_slash :
    CheckNoLeadingSlash "/gps" = Except.error FatalError.frame_id_leading_slash ∧
    CheckNoLeadingSlash "/map" = Except.error FatalError.frame_id_leading_slash ∧
    (HandleOdometryMessage realLibm (fun stamp => stamp) ⟨true, 0, 0, 0, 0⟩ "gps"
      ⟨0, "/map", "/gps", 10, 20⟩).2.fatal = none ∧
    (HandleOdometryMessage realLibm (fun stamp => stamp) ⟨true, 0, 0, 0, 0⟩ "gps"
      ⟨0, "/map", "/gps", 10, 20⟩).2.forwarded.length = 1 ∧
    (HandleOdometryMessage realLibm (fun stamp => stamp) ⟨true, 0, 0, 0, 0⟩ "gps"
      ⟨0, "/map", "/gps", 10, 20⟩).1.first_lat_ = 10 := by
  refine ⟨rfl, rfl, rfl, rfl, ?_⟩
  show (ToOdometryData realLibm ⟨true, 0, 0, 0, 0⟩ 10 20).1.first_lat_ = 10
  rw [ToOdometryData_members, if_pos ⟨rfl, Or.inl (by norm_num)⟩]

end cartographer_ros
